import Mathlib

/-!
Shallow embedding of the CrabTrader agent orchestrator (`src/index.ts`) and
proofs about its iteration pipeline: health gating, decision execution,
position reconciliation, digest/tip interval gating, mention dedup and the
social fan-out.

Numbers are modelled as rationals (JS numbers on the exact inputs the spec
discusses), timestamps as integers (milliseconds).  Every `await` on a
collaborator is a call into an `Env` oracle indexed by a per-run call
counter; a `none` answer models the call throwing.  `try/catch` is
`M.tryCatch`, which keeps the side effects performed before the throw.
`Promise.all` over the price fetches is modelled with the same result
semantics: it yields views for all trades, or rejects as soon as any fetch
rejects (the surviving sibling results are discarded either way).
-/

namespace CrabTrader

/-- Side of a binary prediction market (source: `position: 'YES' | 'NO'`). -/
inductive Position where
  | YES
  | NO
  deriving DecidableEq, Repr

/-- Trade lifecycle status (source: `status: 'OPEN' | 'CLOSED'`). -/
inductive TradeStatus where
  | OPEN
  | CLOSED
  deriving DecidableEq, Repr

/-- A persisted trade row (spec §3; columns as used by `src/index.ts`).
`amount_usd` and `amount_eth` are optional because the SELL branch
null-checks them (`??` / `!== undefined`). -/
structure Trade where
  id : ℕ
  market_id : String
  market_name : String
  position : Position
  amount_eth : Option ℚ
  amount_usd : Option ℚ
  entry_price : ℚ
  entry_tx_hash : String
  entry_timestamp : ℤ
  exit_price : Option ℚ := none
  exit_tx_hash : Option String := none
  exit_timestamp : Option ℤ := none
  pnl_bps : Option ℤ := none
  status : TradeStatus
  deriving DecidableEq, Repr

/-- An AI trading decision (argument type of `executeTradingDecisions`). -/
inductive Action where
  | BUY
  | SELL
  | HOLD
  deriving DecidableEq, Repr

structure Decision where
  action : Action
  marketId : String
  marketName : String
  position : Position
  amountEth : ℚ
  reasoning : String
  confidence : ℚ
  deriving DecidableEq, Repr

/-- A market row as returned by `fetchMarkets`. -/
structure Market where
  id : String
  name : String
  yesPrice : ℚ
  noPrice : ℚ
  volume24h : ℚ
  deriving DecidableEq, Repr

/-- Result of `analyzeMarkets`. -/
structure Analysis where
  decisions : List Decision
  marketCommentary : Option String
  riskAssessment : Option String
  portfolioRecommendation : Option String
  deriving DecidableEq, Repr

/-- A persisted social post record (spec §3).  `post_id` is an `Option`
because the Farcaster branch stores `castHash` without a null check. -/
structure SocialPost where
  platform : String
  post_id : Option String
  content : String
  post_type : String
  related_trade_id : Option ℕ := none
  timestamp : ℤ
  deriving DecidableEq, Repr

/-- A persisted mention record (spec §3). -/
structure MentionRec where
  id : ℕ
  platform : String
  mention_id : String
  author : String
  content : String
  replied : Bool
  timestamp : ℤ
  reply_id : Option String := none
  deriving DecidableEq, Repr

/-- An inbound mention as returned by the platform fetchers. -/
structure IncomingMention where
  id : String
  author : String
  text : String
  createdAt : ℤ
  deriving DecidableEq, Repr

/-- A persisted portfolio snapshot (spec §3). -/
structure PortfolioSnapshot where
  timestamp : ℤ
  total_value_eth : ℚ
  open_positions_count : ℕ
  daily_pnl_bps : ℤ
  deriving DecidableEq, Repr

/-- Arguments of `executeTrade` (trading collaborator). -/
structure ExecTradeArgs where
  marketId : String
  marketName : String
  position : Position
  amountEth : ℚ
  expectedPrice : ℚ
  deriving DecidableEq, Repr

/-- Result of `executeTrade`. -/
structure ExecTradeResult where
  resolvedMarketId : Option String
  actualPrice : ℚ
  txHash : String
  timestamp : ℤ
  deriving DecidableEq, Repr

/-- Result of `closePosition`. -/
structure CloseResult where
  txHash : String
  timestamp : ℤ
  deriving DecidableEq, Repr

/-- Parameters of a trade-entry social post (source lines 228-237). -/
structure EntryPostParams where
  marketName : String
  position : Position
  amountEth : ℚ
  price : ℚ
  txHash : String
  reasoning : String
  confidence : ℚ
  timestamp : ℤ
  deriving DecidableEq, Repr

/-- Parameters of a trade-exit social post (source lines 311-321). -/
structure ExitPostParams where
  marketName : String
  position : Position
  entryPrice : ℚ
  exitPrice : ℚ
  pnlBps : ℤ
  amountEth : ℚ
  txHash : String
  timestamp : ℤ
  exitReason : String
  deriving DecidableEq, Repr

/-- Parameters of the daily summary post (source lines 390-395). -/
structure DailyParams where
  totalValue : ℚ
  dailyPnlBps : ℤ
  tradesToday : ℕ
  openPositions : ℕ
  deriving DecidableEq, Repr

/-- Parameters of the market-reflection post (source lines 501-509). -/
structure ReflectionParams where
  commentary : String
  riskAssessment : Option String
  portfolioRecommendation : Option String
  timestamp : ℤ
  deriving DecidableEq, Repr

/-- Parameters of the Farcaster round summary (source lines 544-551). -/
structure RoundParams where
  portfolioEth : ℚ
  openPositions : ℕ
  marketsScanned : ℕ
  decisionsCount : ℕ
  tradesExecuted : ℕ
  hasCommentary : Bool
  deriving DecidableEq, Repr

/-- Agent configuration (`config` fields consumed by `src/index.ts`). -/
structure Config where
  minEthBalance : ℚ
  ethUsdPrice : ℚ
  stopLossBps : ℤ
  takeProfitBps : ℤ
  disableMentions : Bool
  disableTips : Bool
  tipRecipients : List String
  tipIntervalMs : ℤ
  tipAmountEth : ℚ
  farcasterSignerUuid : Option String
  loopIntervalMs : ℤ
  deriving DecidableEq, Repr

/-- The persistence collaborator state: one growing table per record kind,
plus a fresh-id counter for rows created with a database identity. -/
structure Db where
  trades : List Trade
  socialPosts : List SocialPost
  mentions : List MentionRec
  snapshots : List PortfolioSnapshot
  nextId : ℕ
  deriving DecidableEq, Repr

/-- Observable external calls of one run (the trace). -/
inductive Event where
  | hasSufficientBalanceCall
  | getBalanceCall
  | fetchMarketsCall
  | fetchNewsCall
  | analyzeMarketsCall
  | executeTradeCall (args : ExecTradeArgs)
  | closePositionCall (marketName : String) (position : Position)
      (entryPrice currentPrice amountUsd : ℚ) (marketId : String)
  | getMarketPriceCall (marketId : String) (position : Position)
  | sendTipCall (recipient : String) (amount : ℚ)
  | postTweetCall (content : String)
  | postCastCall (content : String)
  | replyCall (platform : String) (targetId : String) (text : String)
  | genReplyCall (text : String)
  | fetchMentionsCall (platform : String)
  | processNotableCall
  | tradeExitPostGen (params : ExitPostParams)
  deriving DecidableEq, Repr

/-- The orchestrator's process state: the database, the call trace, the
call counter, and the two module-level timestamps
(`lastDailySummary`, `lastTipTime`, source lines 26-28). -/
structure AgentState where
  db : Db
  trace : List Event
  counter : ℕ
  lastDailySummary : ℤ
  lastTipTime : ℤ
  deriving DecidableEq, Repr

/-- Result of `runOneIteration`. -/
structure IterResult where
  ok : Bool
  message : String
  deriving DecidableEq, Repr

/-- JS `Math.round`: round half toward positive infinity. -/
def jsRound (q : ℚ) : ℤ := ⌊q + 1/2⌋

/-- The P&L formula shared by the SELL branch (line 293) and the position
reconciler (line 466):
`Math.round(((currentPrice - entry_price) / entry_price) * 10000)`. -/
def pnlBpsOf (entryPrice currentPrice : ℚ) : ℤ :=
  jsRound ((currentPrice - entryPrice) / entryPrice * 10000)

/-- JS truthiness for a nullable string (`null`, `undefined` and `""` are
falsy). -/
def jsTruthy : Option String → Bool
  | some s => s ≠ ""
  | none => false

/-- Modelled from the spec: `weiToEth` lives in `src/utils/helpers.ts`,
which is not under `src/`; it is the wei-to-ETH unit conversion. -/
def weiToEth (wei : ℚ) : ℚ := wei / 1000000000000000000

/-- `today.setHours(0,0,0,0)` on a millisecond timestamp: start of day. -/
def startOfDay (t : ℤ) : ℤ := t - t % 86400000

/-- Exit-reason classification (source lines 304-308). -/
def exitReasonOf (pnlBps stopLossBps takeProfitBps : ℤ) : String :=
  if pnlBps ≤ -stopLossBps then "Stop-loss risk control hit."
  else if pnlBps ≥ takeProfitBps then "Take-profit rule triggered."
  else "Signal shifted; trimming risk."

/-- The orchestrator monad: state passing plus JS exceptions.  A thrown
exception keeps the state mutations already performed. -/
def M (α : Type) : Type := AgentState → Except Unit α × AgentState

def M.pure (a : α) : M α := fun s => (Except.ok a, s)

def M.bind (x : M α) (f : α → M β) : M β := fun s =>
  match x s with
  | (Except.ok a, s') => f a s'
  | (Except.error e, s') => (Except.error e, s')

instance : Monad M where
  pure := M.pure
  bind := M.bind

/-- `try x catch { handler }`: side effects before the throw persist. -/
def M.tryCatch (x : M α) (handler : M α) : M α := fun s =>
  match x s with
  | (Except.ok a, s') => (Except.ok a, s')
  | (Except.error _, s') => handler s'

/-- `throw` (a collaborator call rejecting). -/
def M.throwErr : M α := fun s => (Except.error (), s)

/-- One `await` of a collaborator: consumes a call index, appends the call
event, and either returns the oracle's answer or throws when the oracle
answers `none`. -/
def M.call (e : Event) (res : ℕ → Option α) : M α := fun s =>
  match res s.counter with
  | some a => (Except.ok a,
      { s with counter := s.counter + 1, trace := s.trace ++ [e] })
  | none => (Except.error (),
      { s with counter := s.counter + 1, trace := s.trace ++ [e] })

/-- A read of the persistence collaborator; `dbOk` decides whether this
call index throws. -/
def M.dbRead (dbOk : ℕ → Bool) (f : Db → α) : M α := fun s =>
  if dbOk s.counter then
    (Except.ok (f s.db), { s with counter := s.counter + 1 })
  else (Except.error (), { s with counter := s.counter + 1 })

/-- A write to the persistence collaborator returning a value. -/
def M.dbWrite (dbOk : ℕ → Bool) (f : Db → Db × α) : M α := fun s =>
  if dbOk s.counter then
    (Except.ok (f s.db).2,
      { s with db := (f s.db).1, counter := s.counter + 1 })
  else (Except.error (), { s with counter := s.counter + 1 })

/-- `Date.now()` (never throws; each read consumes a call index so that
distinct reads may observe distinct times). -/
def M.nowCall (now : ℕ → ℤ) : M ℤ := fun s =>
  (Except.ok (now s.counter), { s with counter := s.counter + 1 })

/-- Emit a pure-observation event (used for the exit-post parameters). -/
def M.emit (e : Event) : M Unit := fun s =>
  (Except.ok (), { s with trace := s.trace ++ [e] })

def M.getState : M AgentState := fun s => (Except.ok s, s)

def M.setLastDaily (t : ℤ) : M Unit := fun s =>
  (Except.ok (), { s with lastDailySummary := t })

def M.setLastTip (t : ℤ) : M Unit := fun s =>
  (Except.ok (), { s with lastTipTime := t })

/-- The external collaborators, as deterministic oracles over the run's
call counter.  A `none` answer models the corresponding `await` throwing;
for the social `post` operations a `some none` answer models a resolved
call that returned `null`. -/
structure Env where
  cfg : Config
  hasSufficientBalance : ℕ → Option Bool
  getBalance : ℕ → Option ℚ
  postTweet : ℕ → String → Option (Option String)
  postCast : ℕ → String → Option (Option String)
  fetchMarketsE : ℕ → Option (List Market)
  fetchNewsE : ℕ → Option (List String)
  analyze : ℕ → ℚ → List Market → List String → Option Analysis
  execTrade : ℕ → ExecTradeArgs → Option ExecTradeResult
  closePos : ℕ → Option CloseResult
  getMarketPriceE : ℕ → String → Position → Option ℚ
  sendTipE : ℕ → Option Unit
  genReply : ℕ → String → Option String
  replyTweet : ℕ → String → String → Option String
  replyCast : ℕ → String → String → Option String
  fetchTwitterMentionsE : ℕ → Option (List IncomingMention)
  fetchFarcasterMentionsE : ℕ → Option (List IncomingMention)
  processNotable : ℕ → Option Unit
  dbOk : ℕ → Bool
  now : ℕ → ℤ
  randIndex : ℕ → ℕ
  tmplEntry : EntryPostParams → String → String
  tmplExit : ExitPostParams → String → String
  tmplDaily : DailyParams → String → String
  tmplReflection : ReflectionParams → String → String
  tmplRound : RoundParams → String → String

/-- Modelled from the spec: `createTrade` lives in
`src/database/queries.ts`, which is not under `src/`.  Spec §3: a Trade is
"created on successful BUY execution" with a durable identity owned by the
persistence collaborator. -/
def createTradeQ (market_id market_name : String) (position : Position)
    (amount_eth amount_usd entry_price : ℚ) (entry_tx_hash : String)
    (entry_timestamp : ℤ) (db : Db) : Db × Trade :=
  let t : Trade :=
    { id := db.nextId
      market_id := market_id
      market_name := market_name
      position := position
      amount_eth := some amount_eth
      amount_usd := some amount_usd
      entry_price := entry_price
      entry_tx_hash := entry_tx_hash
      entry_timestamp := entry_timestamp
      status := TradeStatus.OPEN }
  ({ db with trades := db.trades ++ [t], nextId := db.nextId + 1 }, t)

/-- Modelled from the spec: `updateTrade` (in `src/database/queries.ts`,
not under `src/`).  Spec §3/§4.2 step 7: the matching trade is "mutated to
CLOSED" with the "exit fields set together atomically with status
transition"; no other column changes. -/
def updateTradeQ (tid : ℕ) (exitPrice : ℚ) (exitTx : String) (exitTs : ℤ)
    (pnl : ℤ) (db : Db) : Db :=
  { db with
    trades := db.trades.map fun t =>
      if t.id = tid then
        { t with
          exit_price := some exitPrice
          exit_tx_hash := some exitTx
          exit_timestamp := some exitTs
          pnl_bps := some pnl
          status := TradeStatus.CLOSED }
      else t }

/-- Modelled from the spec: `getOpenTrades` (in `src/database/queries.ts`,
not under `src/`): the trades with status OPEN. -/
def getOpenTradesQ (db : Db) : List Trade :=
  db.trades.filter fun t => t.status == TradeStatus.OPEN

/-- Modelled from the spec: `getAllTrades(100)` (in
`src/database/queries.ts`, not under `src/`): up to 100 trade rows. -/
def getAllTradesQ (db : Db) : List Trade := db.trades.take 100

/-- Modelled from the spec: `recordSocialPost` (in
`src/database/queries.ts`, not under `src/`).  Spec §3: SocialPost is an
append-only audit log. -/
def recordSocialPostQ (p : SocialPost) (db : Db) : Db × Unit :=
  ({ db with socialPosts := db.socialPosts ++ [p] }, ())

/-- Modelled from the spec: `recordMention` (in `src/database/queries.ts`,
not under `src/`).  Spec §3: a Mention is created on first sighting with a
durable identity. -/
def recordMentionQ (platform mention_id author content : String)
    (timestamp : ℤ) (db : Db) : Db × Unit :=
  ({ db with
      mentions := db.mentions ++
        [{ id := db.nextId
           platform := platform
           mention_id := mention_id
           author := author
           content := content
           replied := false
           timestamp := timestamp }]
      nextId := db.nextId + 1 }, ())

/-- Modelled from the spec: `markMentionReplied` (in
`src/database/queries.ts`, not under `src/`).  Spec §3: a Mention is
"mutated once to mark replied" with the platform reply id. -/
def markMentionRepliedQ (mid : ℕ) (replyId : String) (db : Db) : Db × Unit :=
  ({ db with
      mentions := db.mentions.map fun r =>
        if r.id = mid then { r with replied := true, reply_id := some replyId }
        else r }, ())

/-- Modelled from the spec: `getUnprocessedMentions` (in
`src/database/queries.ts`, not under `src/`).  Spec §9 describes the
mention dedup as "read full set, check membership, then write", and §4.5
checks "against persisted mention records by (platform, mention_id)": the
read returns the persisted mention records. -/
def getUnprocessedMentionsQ (db : Db) : List MentionRec := db.mentions

/-- Modelled from the spec: `createPortfolioSnapshot` (in
`src/database/queries.ts`, not under `src/`).  Spec §3: append-only. -/
def createPortfolioSnapshotQ (p : PortfolioSnapshot) (db : Db) : Db × Unit :=
  ({ db with snapshots := db.snapshots ++ [p] }, ())

/-- `pickTipRecipient` (source lines 30-36): `null` when tips are disabled
or no recipient is configured, otherwise a uniformly random element;
`Math.floor(Math.random() * len)` is modelled as an oracle index reduced
mod the list length. -/
def pickTipRecipient (env : Env) : M (Option String) := fun s =>
  (Except.ok
    (if env.cfg.disableTips || env.cfg.tipRecipients.isEmpty then none
     else env.cfg.tipRecipients.get?
       (env.randIndex s.counter % env.cfg.tipRecipients.length)),
   { s with counter := s.counter + 1 })

/-- `healthCheck` (source lines 41-63): sufficient balance yields `true`;
a low balance reads the balance, best-effort posts an alert tweet and
yields `false`; any throw inside the body is caught and yields `false`. -/
def healthCheck (env : Env) : M Bool :=
  M.tryCatch
    (do
      let hasBalance ← M.call Event.hasSufficientBalanceCall env.hasSufficientBalance
      if !hasBalance then do
        let _balance ← M.call Event.getBalanceCall env.getBalance
        M.tryCatch
          (do
            let _ ← M.call (Event.postTweetCall "low balance alert")
              (fun i => env.postTweet i "low balance alert")
            M.pure ())
          (M.pure ())
        M.pure false
      else
        M.pure true)
    (M.pure false)

/-- The bookkeeping after a reply was published (source lines 101-114 and
143-156): re-read the persisted mentions, mark the matching one replied
with the platform reply id, and record a SocialPost for the reply. -/
def mentionRecordTail (env : Env) (platform mid reply replyId : String) : M Unit := do
  let mentions ← M.dbRead env.dbOk getUnprocessedMentionsQ
  match mentions.find? (fun r => r.mention_id == mid) with
  | some dbMention =>
      M.dbWrite env.dbOk (markMentionRepliedQ dbMention.id replyId)
  | none => M.pure ()
  let ts ← M.nowCall env.now
  M.dbWrite env.dbOk (recordSocialPostQ
    { platform := platform
      post_id := some replyId
      content := reply
      post_type := "REPLY"
      timestamp := ts })
  M.pure ()

/-- One platform's mention handling, inside the per-mention catch (source
lines 80-118 for Twitter and 127-160 for Farcaster; the two loops are the
same control flow over the platform tag and the platform's reply
operation): check-then-act dedup against the persisted mention records,
record, generate a reply, publish it, mark replied, record a SocialPost. -/
def mentionStepBody (env : Env) (platform : String)
    (replyOp : ℕ → String → String → Option String)
    (m : IncomingMention) : M Unit := do
  let existing ← M.dbRead env.dbOk getUnprocessedMentionsQ
  let alreadyProcessed :=
    existing.any fun r => r.mention_id == m.id && r.platform == platform
  if alreadyProcessed then M.pure ()
  else do
    M.dbWrite env.dbOk (recordMentionQ platform m.id m.author m.text m.createdAt)
    let reply ← M.call (Event.genReplyCall m.text) (fun i => env.genReply i m.text)
    let replyId ← M.call (Event.replyCall platform m.id reply)
      (fun i => replyOp i m.id reply)
    mentionRecordTail env platform m.id reply replyId

/-- One iteration of a platform's mention loop: the body under the
per-mention catch (one mention failing does not stop the rest). -/
def mentionStep (env : Env) (platform : String)
    (replyOp : ℕ → String → String → Option String)
    (m : IncomingMention) : M Unit :=
  M.tryCatch (mentionStepBody env platform replyOp m) (M.pure ())

/-- The per-platform mention loop. -/
def mentionLoop (env : Env) (platform : String)
    (replyOp : ℕ → String → String → Option String) :
    List IncomingMention → M Unit
  | [] => M.pure ()
  | m :: rest => do
      mentionStep env platform replyOp m
      mentionLoop env platform replyOp rest

/-- `processMentions` (source lines 68-168): a no-op when disabled; else
fetch and process the Twitter mentions then the Farcaster mentions, the
whole body under one catch. -/
def processMentions (env : Env) : M Unit :=
  if env.cfg.disableMentions then M.pure ()
  else
    M.tryCatch
      (do
        let twitterMentions ← M.call (Event.fetchMentionsCall "TWITTER")
          env.fetchTwitterMentionsE
        mentionLoop env "TWITTER" env.replyTweet twitterMentions
        let farcasterMentions ← M.call (Event.fetchMentionsCall "FARCASTER")
          env.fetchFarcasterMentionsE
        mentionLoop env "FARCASTER" env.replyCast farcasterMentions)
      (M.pure ())

/-- The trade-entry tweet block (source lines 239-254): generate the post,
publish, and record a SocialPost only when the returned id is truthy; the
whole block is caught. -/
def entryTweetBlock (env : Env) (postParams : EntryPostParams) (tradeId : ℕ) : M Unit :=
  M.tryCatch
    (do
      let tweetContent := env.tmplEntry postParams "TWITTER"
      let tweetId ← M.call (Event.postTweetCall tweetContent)
        (fun i => env.postTweet i tweetContent)
      if jsTruthy tweetId then do
        let ts ← M.nowCall env.now
        M.dbWrite env.dbOk (recordSocialPostQ
          { platform := "TWITTER"
            post_id := tweetId
            content := tweetContent
            post_type := "TRADE_ENTRY"
            related_trade_id := some tradeId
            timestamp := ts })
      else M.pure ())
    (M.pure ())

/-- The trade-entry cast block (source lines 256-269): unlike the tweet
block, the SocialPost is recorded without a null check on `castHash`. -/
def entryCastBlock (env : Env) (postParams : EntryPostParams) (tradeId : ℕ) : M Unit :=
  M.tryCatch
    (do
      let castContent := env.tmplEntry postParams "FARCASTER"
      let castHash ← M.call (Event.postCastCall castContent)
        (fun i => env.postCast i castContent)
      let ts ← M.nowCall env.now
      M.dbWrite env.dbOk (recordSocialPostQ
        { platform := "FARCASTER"
          post_id := castHash
          content := castContent
          post_type := "TRADE_ENTRY"
          related_trade_id := some tradeId
          timestamp := ts }))
    (M.pure ())

/-- The trade-exit tweet block (source lines 323-338). -/
def exitTweetBlock (env : Env) (postParams : ExitPostParams) (tradeId : ℕ) : M Unit :=
  M.tryCatch
    (do
      M.emit (Event.tradeExitPostGen postParams)
      let tweetContent := env.tmplExit postParams "TWITTER"
      let tweetId ← M.call (Event.postTweetCall tweetContent)
        (fun i => env.postTweet i tweetContent)
      if jsTruthy tweetId then do
        let ts ← M.nowCall env.now
        M.dbWrite env.dbOk (recordSocialPostQ
          { platform := "TWITTER"
            post_id := tweetId
            content := tweetContent
            post_type := "TRADE_EXIT"
            related_trade_id := some tradeId
            timestamp := ts })
      else M.pure ())
    (M.pure ())

/-- The trade-exit cast block (source lines 340-353); again no null check
before recording. -/
def exitCastBlock (env : Env) (postParams : ExitPostParams) (tradeId : ℕ) : M Unit :=
  M.tryCatch
    (do
      M.emit (Event.tradeExitPostGen postParams)
      let castContent := env.tmplExit postParams "FARCASTER"
      let castHash ← M.call (Event.postCastCall castContent)
        (fun i => env.postCast i castContent)
      let ts ← M.nowCall env.now
      M.dbWrite env.dbOk (recordSocialPostQ
        { platform := "FARCASTER"
          post_id := castHash
          content := castContent
          post_type := "TRADE_EXIT"
          related_trade_id := some tradeId
          timestamp := ts }))
    (M.pure ())

/-- The BUY branch of `executeTradingDecisions` (source lines 195-272).
Returns the number of executed trades this decision contributes (1). -/
def buyBranch (env : Env) (marketPrices : List (String × ℚ × ℚ))
    (decision : Decision) : M ℕ := do
  let priceSnapshot := marketPrices.lookup decision.marketId
  let expectedPrice : Option ℚ :=
    match decision.position with
    | Position.YES => priceSnapshot.map (·.1)
    | Position.NO => priceSnapshot.map (·.2)
  let amountUsd := decision.amountEth * env.cfg.ethUsdPrice
  let args : ExecTradeArgs :=
    { marketId := decision.marketId
      marketName := decision.marketName
      position := decision.position
      amountEth := decision.amountEth
      expectedPrice := expectedPrice.getD 5000 }
  let result ← M.call (Event.executeTradeCall args) (fun i => env.execTrade i args)
  let marketIdForDb := result.resolvedMarketId.getD decision.marketId
  let trade ← M.dbWrite env.dbOk
    (createTradeQ marketIdForDb decision.marketName decision.position
      decision.amountEth amountUsd result.actualPrice result.txHash result.timestamp)
  let postParams : EntryPostParams :=
    { marketName := decision.marketName
      position := decision.position
      amountEth := decision.amountEth
      price := result.actualPrice
      txHash := result.txHash
      reasoning := decision.reasoning
      confidence := decision.confidence
      timestamp := result.timestamp }
  entryTweetBlock env postParams trade.id
  entryCastBlock env postParams trade.id
  M.pure 1

/-- The `amount_usd` fallback chain of the SELL branch (source lines
280-283): stored `amount_usd`, else stored `amount_eth` times the FX rate,
else the decision's `amountEth` times the FX rate. -/
def amountUsdOf (tradeToClose : Trade) (decision : Decision) (ethUsdPrice : ℚ) : ℚ :=
  match tradeToClose.amount_usd with
  | some u => u
  | none =>
      match tradeToClose.amount_eth with
      | some e => e * ethUsdPrice
      | none => decision.amountEth * ethUsdPrice

/-- The SELL branch of `executeTradingDecisions` (source lines 273-357).
Returns 1 when an open trade matched and was closed, 0 when the decision
was silently dropped. -/
def sellBranch (env : Env) (decision : Decision) : M ℕ := do
  let openTrades ← M.dbRead env.dbOk getOpenTradesQ
  match openTrades.find? (fun t => t.market_id == decision.marketId) with
  | none => M.pure 0
  | some tradeToClose => do
      let currentPrice ← M.call
        (Event.getMarketPriceCall decision.marketId tradeToClose.position)
        (fun i => env.getMarketPriceE i decision.marketId tradeToClose.position)
      let amountUsd := amountUsdOf tradeToClose decision env.cfg.ethUsdPrice
      let result ← M.call
        (Event.closePositionCall tradeToClose.market_name tradeToClose.position
          tradeToClose.entry_price currentPrice amountUsd tradeToClose.market_id)
        (fun i => env.closePos i)
      let pnlBps := pnlBpsOf tradeToClose.entry_price currentPrice
      M.dbWrite env.dbOk
        (fun db => (updateTradeQ tradeToClose.id currentPrice result.txHash
          result.timestamp pnlBps db, ()))
      let exitReason := exitReasonOf pnlBps env.cfg.stopLossBps env.cfg.takeProfitBps
      let postParams : ExitPostParams :=
        { marketName := tradeToClose.market_name
          position := tradeToClose.position
          entryPrice := tradeToClose.entry_price
          exitPrice := currentPrice
          pnlBps := pnlBps
          amountEth := 1/10
          txHash := result.txHash
          timestamp := result.timestamp
          exitReason := exitReason }
      exitTweetBlock env postParams tradeToClose.id
      exitCastBlock env postParams tradeToClose.id
      M.pure 1

/-- The decision loop of `executeTradingDecisions` (source lines 185-362):
HOLD is skipped; BUY/SELL run under a per-decision catch, so one failing
decision contributes 0 and the loop continues. -/
def execLoop (env : Env) (marketPrices : List (String × ℚ × ℚ)) :
    List Decision → M ℕ
  | [] => M.pure 0
  | decision :: rest => do
      let n ←
        match decision.action with
        | Action.HOLD => M.pure 0
        | Action.BUY => M.tryCatch (buyBranch env marketPrices decision) (M.pure 0)
        | Action.SELL => M.tryCatch (sellBranch env decision) (M.pure 0)
      let rest' ← execLoop env marketPrices rest
      M.pure (n + rest')

/-- `executeTradingDecisions` (source lines 173-365). -/
def executeTradingDecisions (env : Env) (decisions : List Decision)
    (marketPrices : List (String × ℚ × ℚ)) : M ℕ :=
  execLoop env marketPrices decisions

/-- The daily-summary tweet block (source lines 397-411). -/
def digestTweetBlock (env : Env) (params : DailyParams) : M Unit :=
  M.tryCatch
    (do
      let tweetContent := env.tmplDaily params "TWITTER"
      let tweetId ← M.call (Event.postTweetCall tweetContent)
        (fun i => env.postTweet i tweetContent)
      if jsTruthy tweetId then do
        let ts ← M.nowCall env.now
        M.dbWrite env.dbOk (recordSocialPostQ
          { platform := "TWITTER"
            post_id := tweetId
            content := tweetContent
            post_type := "DAILY_SUMMARY"
            timestamp := ts })
      else M.pure ())
    (M.pure ())

/-- The daily-summary cast block (source lines 413-425). -/
def digestCastBlock (env : Env) (params : DailyParams) : M Unit :=
  M.tryCatch
    (do
      let castContent := env.tmplDaily params "FARCASTER"
      let castHash ← M.call (Event.postCastCall castContent)
        (fun i => env.postCast i castContent)
      let ts ← M.nowCall env.now
      M.dbWrite env.dbOk (recordSocialPostQ
        { platform := "FARCASTER"
          post_id := castHash
          content := castContent
          post_type := "DAILY_SUMMARY"
          timestamp := ts }))
    (M.pure ())

/-- The digest interval (source line 27). -/
def DAILY_SUMMARY_INTERVAL : ℤ := 24 * 60 * 60 * 1000

/-- The `try` body of `postDailySummary` (source lines 378-436): aggregate
balance, open trades and today's closed P&L from the database, best-effort
post the summary to both platforms, record a portfolio snapshot, and
finally advance `lastDailySummary` to the gate-check time `now`. -/
def digestBody (env : Env) (now : ℤ) : M Unit := do
  let balance ← M.call Event.getBalanceCall env.getBalance
  let totalValue := weiToEth balance
  let openTrades ← M.dbRead env.dbOk getOpenTradesQ
  let allTrades ← M.dbRead env.dbOk getAllTradesQ
  let today := startOfDay now
  let tradesToday := allTrades.filter fun t => t.entry_timestamp ≥ today
  let dailyPnlBps := tradesToday.foldl (fun sum t => sum + t.pnl_bps.getD 0) 0
  let params : DailyParams :=
    { totalValue := totalValue
      dailyPnlBps := dailyPnlBps
      tradesToday := tradesToday.length
      openPositions := openTrades.length }
  digestTweetBlock env params
  digestCastBlock env params
  let ts ← M.nowCall env.now
  M.dbWrite env.dbOk (createPortfolioSnapshotQ
    { timestamp := ts
      total_value_eth := totalValue
      open_positions_count := openTrades.length
      daily_pnl_bps := dailyPnlBps })
  M.setLastDaily now

/-- `postDailySummary` (source lines 370-440): gate on
`now - lastDailySummary < DAILY_SUMMARY_INTERVAL`; on fire, aggregate from
the database, best-effort post to both platforms, record a portfolio
snapshot, then advance `lastDailySummary` to the gate-check time.  The
body runs under a catch, so `lastDailySummary` does not advance if a
non-social step throws. -/
def postDailySummary (env : Env) : M Unit := do
  let now ← M.nowCall env.now
  let st ← M.getState
  if now - st.lastDailySummary < DAILY_SUMMARY_INTERVAL then M.pure ()
  else M.tryCatch (digestBody env now) (M.pure ())

/-- The per-position price-and-P&L reconciliation of `runOneIteration`
(source lines 463-476), with `Promise.all`'s result semantics: either a
view for every open trade, or the whole computation rejects as soon as any
`getMarketPrice` rejects. -/
def reconcilePositions (env : Env) : List Trade → M (List (String × Position × ℚ × ℤ))
  | [] => M.pure []
  | trade :: rest => do
      let currentPrice ← M.call
        (Event.getMarketPriceCall trade.market_id trade.position)
        (fun i => env.getMarketPriceE i trade.market_id trade.position)
      let view := (trade.market_id, trade.position, currentPrice,
        pnlBpsOf trade.entry_price currentPrice)
      let views ← reconcilePositions env rest
      M.pure (view :: views)

/-- The market-commentary block (source lines 499-528). -/
def commentaryStep (env : Env) (analysis : Analysis) : M Unit :=
  if jsTruthy analysis.marketCommentary then do
    M.tryCatch
      (do
        let ts ← M.nowCall env.now
        let reflection := env.tmplReflection
          { commentary := analysis.marketCommentary.getD ""
            riskAssessment := analysis.riskAssessment
            portfolioRecommendation := analysis.portfolioRecommendation
            timestamp := ts } "TWITTER"
        let _ ← M.call (Event.postTweetCall reflection)
          (fun i => env.postTweet i reflection)
        M.pure ())
      (M.pure ())
    M.tryCatch
      (do
        let ts ← M.nowCall env.now
        let castContent := env.tmplReflection
          { commentary := analysis.marketCommentary.getD ""
            riskAssessment := analysis.riskAssessment
            portfolioRecommendation := analysis.portfolioRecommendation
            timestamp := ts } "FARCASTER"
        let _ ← M.call (Event.postCastCall castContent)
          (fun i => env.postCast i castContent)
        M.pure ())
      (M.pure ())
  else M.pure ()

/-- The Farcaster round-summary block (source lines 540-559): soft-skip
without the signer, else best-effort post. -/
def roundStep (env : Env) (portfolioValue : ℚ) (openPositions marketsScanned
    decisionsCount tradesExecuted : ℕ) (hasCommentary : Bool) : M Unit :=
  M.tryCatch
    (match env.cfg.farcasterSignerUuid with
     | none => M.pure ()
     | some _ => do
        let castContent := env.tmplRound
          { portfolioEth := portfolioValue
            openPositions := openPositions
            marketsScanned := marketsScanned
            decisionsCount := decisionsCount
            tradesExecuted := tradesExecuted
            hasCommentary := hasCommentary } "FARCASTER"
        let _ ← M.call (Event.postCastCall castContent)
          (fun i => env.postCast i castContent)
        M.pure ())
    (M.pure ())

/-- The tip-disbursement step of `runOneIteration` (source lines 561-572):
gate on `!disableTips && now - lastTipTime >= tipIntervalMs`, pick a
recipient, and advance `lastTipTime` to the gate-check time only when
`sendTip` resolved; a throwing `sendTip` leaves `lastTipTime` unchanged. -/
def tipStep (env : Env) : M Unit := do
  let now ← M.nowCall env.now
  let st ← M.getState
  if !env.cfg.disableTips && now - st.lastTipTime ≥ env.cfg.tipIntervalMs then do
    let recipient ← pickTipRecipient env
    match recipient with
    | some r =>
        M.tryCatch
          (do
            let _ ← M.call (Event.sendTipCall r env.cfg.tipAmountEth) env.sendTipE
            M.setLastTip now)
          (M.pure ())
    | none => M.pure ()
  else M.pure ()

/-- `Boolean(analysis.marketCommentary?.trim())` (source line 550). -/
def hasCommentaryOf : Option String → Bool
  | some s => s.trim ≠ ""
  | none => false

/-- `runOneIteration` (source lines 446-580): the whole body runs under a
top-level catch returning `ok = false`. -/
def runOneIteration (env : Env) : M IterResult :=
  M.tryCatch
    (do
      let healthy ← healthCheck env
      if !healthy then
        M.pure { ok := false, message := "Health check failed" }
      else do
        let markets ← M.call Event.fetchMarketsCall env.fetchMarketsE
        let balance ← M.call Event.getBalanceCall env.getBalance
        let portfolioValue := weiToEth balance
        let openTrades ← M.dbRead env.dbOk getOpenTradesQ
        let _openPositionsWithPrices ← reconcilePositions env openTrades
        let newsContext ← M.call Event.fetchNewsCall env.fetchNewsE
        let analysis ← M.call Event.analyzeMarketsCall
          (fun i => env.analyze i portfolioValue markets newsContext)
        commentaryStep env analysis
        let priceMap := markets.map fun m => (m.id, m.yesPrice, m.noPrice)
        let tradesExecuted ← executeTradingDecisions env analysis.decisions priceMap
        let _ ← M.call Event.processNotableCall env.processNotable
        processMentions env
        postDailySummary env
        roundStep env portfolioValue openTrades.length markets.length
          analysis.decisions.length tradesExecuted
          (hasCommentaryOf analysis.marketCommentary)
        tipStep env
        M.pure { ok := true, message := "Iteration complete" })
    (M.pure { ok := false, message := "error" })

/-- One process-level action of a signal handler. -/
inductive ProcAction where
  | logLine (s : String)
  | setRunning (b : Bool)
  | exitProcess (code : ℕ)
  deriving DecidableEq, Repr

/-- The SIGINT handler body (source lines 677-681), statement by
statement. -/
def sigintHandlerActions : List ProcAction :=
  [ProcAction.logLine "Received SIGINT, shutting down gracefully...",
   ProcAction.setRunning false,
   ProcAction.exitProcess 0]

/-- The SIGTERM handler body (source lines 683-687). -/
def sigtermHandlerActions : List ProcAction :=
  [ProcAction.logLine "Received SIGTERM, shutting down gracefully...",
   ProcAction.setRunning false,
   ProcAction.exitProcess 0]

/-! ### Observation helpers -/

/-- Calls to the AI decision collaborator (`analyzeMarkets`) or the
trading collaborator (`executeTrade`, `closePosition`, `getMarketPrice`). -/
def isAiOrTradingCall : Event → Bool
  | Event.analyzeMarketsCall => true
  | Event.executeTradeCall _ => true
  | Event.closePositionCall _ _ _ _ _ _ => true
  | Event.getMarketPriceCall _ _ => true
  | _ => false

def aiTradingCount (tr : List Event) : ℕ := (tr.filter isAiOrTradingCall).length

/-- A platform reply to a given mention id. -/
def isReplyTo (platform targetId : String) : Event → Bool
  | Event.replyCall p t _ => p == platform && t == targetId
  | _ => false

def replyCount (tr : List Event) (platform targetId : String) : ℕ :=
  (tr.filter (isReplyTo platform targetId)).length

/-- An exit-post generation whose amount field differs from the hardcoded
0.1 ETH placeholder. -/
def isBadExitGen : Event → Bool
  | Event.tradeExitPostGen p => decide (p.amountEth ≠ 1/10)
  | _ => false

def badExitGenCount (tr : List Event) : ℕ := (tr.filter isBadExitGen).length

/-- Membership of a (platform, mention_id) pair among the persisted
mention records — the dedup source of truth. -/
def hasMention (db : Db) (platform mentionId : String) : Prop :=
  ∃ r ∈ db.mentions, r.mention_id = mentionId ∧ r.platform = platform

instance (db : Db) (platform mentionId : String) :
    Decidable (hasMention db platform mentionId) := by
  unfold hasMention
  infer_instance

/-! ### Evaluation lemmas for the monad -/

@[simp] theorem bind_apply {α β : Type} (x : M α) (f : α → M β) (s : AgentState) :
    (x >>= f) s =
      match x s with
      | (Except.ok a, s') => f a s'
      | (Except.error e, s') => (Except.error e, s') := rfl

@[simp] theorem pure_apply {α : Type} (a : α) (s : AgentState) :
    (Pure.pure a : M α) s = (Except.ok a, s) := rfl

@[simp] theorem mpure_apply {α : Type} (a : α) (s : AgentState) :
    (M.pure a : M α) s = (Except.ok a, s) := rfl

@[simp] theorem tryCatch_apply {α : Type} (x h : M α) (s : AgentState) :
    (M.tryCatch x h) s =
      match x s with
      | (Except.ok a, s') => (Except.ok a, s')
      | (Except.error _, s') => h s' := rfl

@[simp] theorem ite_apply {α : Type} (c : Prop) [Decidable c] (x y : M α)
    (s : AgentState) : (if c then x else y) s = if c then x s else y s := by
  split <;> rfl

/-! ### A fully-resolving environment for concrete runs -/

def defaultConfig : Config :=
  { minEthBalance := 1/100
    ethUsdPrice := 3000
    stopLossBps := 1500
    takeProfitBps := 3000
    disableMentions := false
    disableTips := false
    tipRecipients := ["0xaaa"]
    tipIntervalMs := 86400000
    tipAmountEth := 1/2000
    farcasterSignerUuid := some "signer"
    loopIntervalMs := 900000 }

/-- An environment in which every collaborator call resolves. -/
def baseEnv : Env :=
  { cfg := defaultConfig
    hasSufficientBalance := fun _ => some true
    getBalance := fun _ => some 20000000000000000
    postTweet := fun _ _ => some (some "tweet1")
    postCast := fun _ _ => some (some "cast1")
    fetchMarketsE := fun _ => some []
    fetchNewsE := fun _ => some []
    analyze := fun _ _ _ _ => some
      { decisions := []
        marketCommentary := none
        riskAssessment := none
        portfolioRecommendation := none }
    execTrade := fun _ a => some
      { resolvedMarketId := none
        actualPrice := a.expectedPrice
        txHash := "tx"
        timestamp := 0 }
    closePos := fun _ => some { txHash := "tx2", timestamp := 1 }
    getMarketPriceE := fun _ _ _ => some 5000
    sendTipE := fun _ => some ()
    genReply := fun _ _ => some "reply"
    replyTweet := fun _ _ _ => some "rid"
    replyCast := fun _ _ _ => some "rhash"
    fetchTwitterMentionsE := fun _ => some []
    fetchFarcasterMentionsE := fun _ => some []
    processNotable := fun _ => some ()
    dbOk := fun _ => true
    now := fun _ => 1000000000
    randIndex := fun _ => 0
    tmplEntry := fun _ p => p
    tmplExit := fun _ p => p
    tmplDaily := fun _ p => p
    tmplReflection := fun _ p => p
    tmplRound := fun _ p => p }

def emptyDb : Db :=
  { trades := [], socialPosts := [], mentions := [], snapshots := [], nextId := 0 }

def initState : AgentState :=
  { db := emptyDb, trace := [], counter := 0, lastDailySummary := 0, lastTipTime := 0 }

@[simp] theorem aiTradingCount_append (a b : List Event) :
    aiTradingCount (a ++ b) = aiTradingCount a + aiTradingCount b := by
  simp [aiTradingCount, List.filter_append]

@[simp] theorem replyCount_append (a b : List Event) (p x : String) :
    replyCount (a ++ b) p x = replyCount a p x + replyCount b p x := by
  simp [replyCount, List.filter_append]

@[simp] theorem badExitGenCount_append (a b : List Event) :
    badExitGenCount (a ++ b) = badExitGenCount a + badExitGenCount b := by
  simp [badExitGenCount, List.filter_append]

/-- Projection of a SocialPost record to the fields the fan-out decides
(platform, post type, stored platform post id). -/
def postKey (p : SocialPost) : String × String × Option String :=
  (p.platform, p.post_type, p.post_id)

/-- The SocialPost keys the Twitter trade-entry block persists for a given
outcome of the tweet call: one record exactly when the call resolved with
a truthy id (source line 242: `if (tweetId)`). -/
def twitterPart (twRes : Option (Option String)) : List (String × String × Option String) :=
  match twRes with
  | some id => if jsTruthy id then [("TWITTER", "TRADE_ENTRY", id)] else []
  | none => []

/-- The SocialPost keys the Farcaster trade-entry block persists for a
given outcome of the cast call: one record whenever the call resolved,
whatever it returned (source lines 258-266: no null check). -/
def farcasterPart (caRes : Option (Option String)) : List (String × String × Option String) :=
  match caRes with
  | some castHash => [("FARCASTER", "TRADE_ENTRY", castHash)]
  | none => []

/-! ### Shape lemmas for the social-post blocks -/

theorem exitTweetBlock_spec (env : Env) (p : ExitPostParams) (tid : ℕ) (s : AgentState) :
    ((exitTweetBlock env p tid) s).1 = Except.ok () ∧
    ((exitTweetBlock env p tid) s).2.db.trades = s.db.trades ∧
    ((exitTweetBlock env p tid) s).2.lastDailySummary = s.lastDailySummary ∧
    ((exitTweetBlock env p tid) s).2.lastTipTime = s.lastTipTime ∧
    badExitGenCount ((exitTweetBlock env p tid) s).2.trace =
      badExitGenCount s.trace + (if p.amountEth = 1/10 then 0 else 1) := by
  rcases h1 : env.postTweet s.counter (env.tmplExit p "TWITTER") with _ | id
  · simp [exitTweetBlock, tryCatch_apply, bind_apply, M.call, M.emit, M.nowCall,
      M.dbWrite, mpure_apply, ite_apply, recordSocialPostQ, h1,
      badExitGenCount, isBadExitGen, List.filter] <;>
      by_cases hp : p.amountEth = (10:ℚ)⁻¹ <;> simp [hp]
  · cases h2 : jsTruthy id <;> cases h3 : env.dbOk (s.counter + 1 + 1) <;>
      simp [exitTweetBlock, tryCatch_apply, bind_apply, M.call, M.emit, M.nowCall,
        M.dbWrite, mpure_apply, ite_apply, recordSocialPostQ, h1, h2, h3,
        badExitGenCount, isBadExitGen, List.filter] <;>
      by_cases hp : p.amountEth = (10:ℚ)⁻¹ <;> simp [hp]

theorem exitCastBlock_spec (env : Env) (p : ExitPostParams) (tid : ℕ) (s : AgentState) :
    ((exitCastBlock env p tid) s).1 = Except.ok () ∧
    ((exitCastBlock env p tid) s).2.db.trades = s.db.trades ∧
    ((exitCastBlock env p tid) s).2.lastDailySummary = s.lastDailySummary ∧
    ((exitCastBlock env p tid) s).2.lastTipTime = s.lastTipTime ∧
    badExitGenCount ((exitCastBlock env p tid) s).2.trace =
      badExitGenCount s.trace + (if p.amountEth = 1/10 then 0 else 1) := by
  rcases h1 : env.postCast s.counter (env.tmplExit p "FARCASTER") with _ | id
  · simp [exitCastBlock, tryCatch_apply, bind_apply, M.call, M.emit, M.nowCall,
      M.dbWrite, mpure_apply, ite_apply, recordSocialPostQ, h1,
      badExitGenCount, isBadExitGen, List.filter] <;>
      by_cases hp : p.amountEth = (10:ℚ)⁻¹ <;> simp [hp]
  · cases h3 : env.dbOk (s.counter + 1 + 1) <;>
      simp [exitCastBlock, tryCatch_apply, bind_apply, M.call, M.emit, M.nowCall,
        M.dbWrite, mpure_apply, ite_apply, recordSocialPostQ, h1, h3,
        badExitGenCount, isBadExitGen, List.filter] <;>
      by_cases hp : p.amountEth = (10:ℚ)⁻¹ <;> simp [hp]

theorem entryTweetBlock_spec (env : Env) (p : EntryPostParams) (tid : ℕ) (s : AgentState)
    (twRes : Option (Option String))
    (h : env.postTweet s.counter (env.tmplEntry p "TWITTER") = twRes)
    (hdb : ∀ i, env.dbOk i = true) :
    ((entryTweetBlock env p tid) s).1 = Except.ok () ∧
    ((entryTweetBlock env p tid) s).2.db.trades = s.db.trades ∧
    ((entryTweetBlock env p tid) s).2.lastDailySummary = s.lastDailySummary ∧
    ((entryTweetBlock env p tid) s).2.lastTipTime = s.lastTipTime ∧
    ((entryTweetBlock env p tid) s).2.db.socialPosts.map postKey =
      s.db.socialPosts.map postKey ++ twitterPart twRes := by
  rcases twRes with _ | id
  · simp [entryTweetBlock, tryCatch_apply, bind_apply, M.call, M.nowCall, M.dbWrite,
      mpure_apply, ite_apply, recordSocialPostQ, twitterPart, h]
  · cases h2 : jsTruthy id <;>
      simp [entryTweetBlock, tryCatch_apply, bind_apply, M.call, M.nowCall, M.dbWrite,
        mpure_apply, ite_apply, recordSocialPostQ, postKey, twitterPart, h, h2, hdb]

theorem entryCastBlock_spec (env : Env) (p : EntryPostParams) (tid : ℕ) (s : AgentState)
    (caRes : Option (Option String))
    (h : env.postCast s.counter (env.tmplEntry p "FARCASTER") = caRes)
    (hdb : ∀ i, env.dbOk i = true) :
    ((entryCastBlock env p tid) s).1 = Except.ok () ∧
    ((entryCastBlock env p tid) s).2.db.trades = s.db.trades ∧
    ((entryCastBlock env p tid) s).2.lastDailySummary = s.lastDailySummary ∧
    ((entryCastBlock env p tid) s).2.lastTipTime = s.lastTipTime ∧
    ((entryCastBlock env p tid) s).2.db.socialPosts.map postKey =
      s.db.socialPosts.map postKey ++ farcasterPart caRes := by
  rcases caRes with _ | castHash <;>
    simp [entryCastBlock, tryCatch_apply, bind_apply, M.call, M.nowCall, M.dbWrite,
      mpure_apply, ite_apply, recordSocialPostQ, postKey, farcasterPart, h, hdb]

theorem digestTweetBlock_spec (env : Env) (p : DailyParams) (s : AgentState) :
    ((digestTweetBlock env p) s).1 = Except.ok () ∧
    ((digestTweetBlock env p) s).2.lastDailySummary = s.lastDailySummary ∧
    ((digestTweetBlock env p) s).2.lastTipTime = s.lastTipTime := by
  rcases h1 : env.postTweet s.counter (env.tmplDaily p "TWITTER") with _ | id
  · simp [digestTweetBlock, tryCatch_apply, bind_apply, M.call, M.nowCall, M.dbWrite,
      mpure_apply, ite_apply, recordSocialPostQ, h1]
  · cases h2 : jsTruthy id <;> cases h3 : env.dbOk (s.counter + 1 + 1) <;>
      simp [digestTweetBlock, tryCatch_apply, bind_apply, M.call, M.nowCall, M.dbWrite,
        mpure_apply, ite_apply, recordSocialPostQ, h1, h2, h3]

theorem digestCastBlock_spec (env : Env) (p : DailyParams) (s : AgentState) :
    ((digestCastBlock env p) s).1 = Except.ok () ∧
    ((digestCastBlock env p) s).2.lastDailySummary = s.lastDailySummary ∧
    ((digestCastBlock env p) s).2.lastTipTime = s.lastTipTime := by
  rcases h1 : env.postCast s.counter (env.tmplDaily p "FARCASTER") with _ | id
  · simp [digestCastBlock, tryCatch_apply, bind_apply, M.call, M.nowCall, M.dbWrite,
      mpure_apply, ite_apply, recordSocialPostQ, h1]
  · cases h3 : env.dbOk (s.counter + 1 + 1) <;>
      simp [digestCastBlock, tryCatch_apply, bind_apply, M.call, M.nowCall, M.dbWrite,
        mpure_apply, ite_apply, recordSocialPostQ, h1, h3]

/-- Pair-hypothesis form of `exitTweetBlock_spec`, for use after `split`. -/
theorem exitTweetBlock_run (env : Env) (p : ExitPostParams) (tid : ℕ)
    {s s' : AgentState} {r : Except Unit Unit}
    (h : (exitTweetBlock env p tid) s = (r, s')) :
    r = Except.ok () ∧ s'.db.trades = s.db.trades ∧
    s'.lastDailySummary = s.lastDailySummary ∧
    s'.lastTipTime = s.lastTipTime ∧
    badExitGenCount s'.trace =
      badExitGenCount s.trace + (if p.amountEth = 1/10 then 0 else 1) := by
  obtain ⟨e1, e2, e3, e4, e5⟩ := exitTweetBlock_spec env p tid s
  rw [h] at e1 e2 e3 e4 e5
  exact ⟨e1, e2, e3, e4, e5⟩

/-- Pair-hypothesis form of `exitCastBlock_spec`. -/
theorem exitCastBlock_run (env : Env) (p : ExitPostParams) (tid : ℕ)
    {s s' : AgentState} {r : Except Unit Unit}
    (h : (exitCastBlock env p tid) s = (r, s')) :
    r = Except.ok () ∧ s'.db.trades = s.db.trades ∧
    s'.lastDailySummary = s.lastDailySummary ∧
    s'.lastTipTime = s.lastTipTime ∧
    badExitGenCount s'.trace =
      badExitGenCount s.trace + (if p.amountEth = 1/10 then 0 else 1) := by
  obtain ⟨e1, e2, e3, e4, e5⟩ := exitCastBlock_spec env p tid s
  rw [h] at e1 e2 e3 e4 e5
  exact ⟨e1, e2, e3, e4, e5⟩

/-- Pair-hypothesis form of `digestTweetBlock_spec`. -/
theorem digestTweetBlock_run (env : Env) (p : DailyParams)
    {s s' : AgentState} {r : Except Unit Unit}
    (h : (digestTweetBlock env p) s = (r, s')) :
    r = Except.ok () ∧ s'.lastDailySummary = s.lastDailySummary ∧
    s'.lastTipTime = s.lastTipTime := by
  obtain ⟨e1, e2, e3⟩ := digestTweetBlock_spec env p s
  rw [h] at e1 e2 e3
  exact ⟨e1, e2, e3⟩

/-- Pair-hypothesis form of `digestCastBlock_spec`. -/
theorem digestCastBlock_run (env : Env) (p : DailyParams)
    {s s' : AgentState} {r : Except Unit Unit}
    (h : (digestCastBlock env p) s = (r, s')) :
    r = Except.ok () ∧ s'.lastDailySummary = s.lastDailySummary ∧
    s'.lastTipTime = s.lastTipTime := by
  obtain ⟨e1, e2, e3⟩ := digestCastBlock_spec env p s
  rw [h] at e1 e2 e3
  exact ⟨e1, e2, e3⟩

/-- `updateTradeQ` viewed through the (id, pnl_bps) projection: the
matching row gets the new pnl, every other row is untouched. -/
theorem updateTradeQ_pnl_proj (tid : ℕ) (ep : ℚ) (tx : String) (ts : ℤ)
    (pnl : ℤ) (db : Db) :
    (updateTradeQ tid ep tx ts pnl db).trades.map (fun tr => (tr.id, tr.pnl_bps)) =
      db.trades.map (fun tr =>
        (tr.id, if tr.id = tid then some pnl else tr.pnl_bps)) := by
  simp only [updateTradeQ, List.map_map]
  apply List.map_congr_left
  intro a _
  by_cases h : a.id = tid <;> simp [h]

/-! ### Claim theorems -/

/-- **C4.** For every SELL execution, the exit reason is classified from
`pnl_bps` and the configured thresholds exactly as the cascade at source
lines 304-308: `pnl_bps ≤ −stopLossBps` gives the stop-loss reason,
otherwise `pnl_bps ≥ takeProfitBps` gives the take-profit reason,
otherwise the signal-shift reason; including the three spec examples. -/
theorem sell_exit_reason_classification :
    (∀ pnl sl tp : ℤ, pnl ≤ -sl →
      exitReasonOf pnl sl tp = "Stop-loss risk control hit.") ∧
    (∀ pnl sl tp : ℤ, ¬pnl ≤ -sl → pnl ≥ tp →
      exitReasonOf pnl sl tp = "Take-profit rule triggered.") ∧
    (∀ pnl sl tp : ℤ, ¬pnl ≤ -sl → ¬pnl ≥ tp →
      exitReasonOf pnl sl tp = "Signal shifted; trimming risk.") ∧
    exitReasonOf (-1600) 1500 3000 = "Stop-loss risk control hit." ∧
    exitReasonOf 3200 1500 3000 = "Take-profit rule triggered." ∧
    exitReasonOf 500 1500 3000 = "Signal shifted; trimming risk." := by
  refine ⟨?_, ?_, ?_, by decide, by decide, by decide⟩
  · intro pnl sl tp h
    simp [exitReasonOf, h]
  · intro pnl sl tp h1 h2
    simp [exitReasonOf, h1, h2]
  · intro pnl sl tp h1 h2
    simp [exitReasonOf, h1, h2]

/-- Witness for C4: the stop-loss clause applied at the spec's example
(`pnl_bps = -1600`, `stopLossBps = 1500`). -/
theorem sell_exit_reason_classification_witness :
    ((-1600 : ℤ) ≤ -(1500 : ℤ)) ∧
    exitReasonOf (-1600) 1500 3000 = "Stop-loss risk control hit." :=
  ⟨by decide, sell_exit_reason_classification.1 (-1600) 1500 3000 (by decide)⟩

/-- **C2.** For every SELL execution whose matched open trade has
`entry_price ≠ 0`, the persisted `pnl_bps` equals
`round((current_price − entry_price) / entry_price × 10000)` as a signed
integer in basis points.  The trade `t` is arbitrary — in particular its
`position` may be `NO`: the persisted value uses the same formula with no
sign inversion.  The last two conjuncts are the spec's examples:
entry 100 → current 120 gives 2000, entry 100 → current 70 gives -3000. -/
theorem sell_pnl_bps_persisted (env : Env) (d : Decision) (s : AgentState)
    (t : Trade) (current : ℚ) (res : CloseResult)
    (hfind : (getOpenTradesQ s.db).find? (fun tr => tr.market_id == d.marketId) = some t)
    (hentry : t.entry_price ≠ 0)
    (hprice : ∀ i, env.getMarketPriceE i d.marketId t.position = some current)
    (hclose : ∀ i, env.closePos i = some res)
    (hdb : ∀ i, env.dbOk i = true) :
    ((sellBranch env d) s).1 = Except.ok 1 ∧
    ((sellBranch env d) s).2.db.trades.map (fun tr => (tr.id, tr.pnl_bps)) =
      s.db.trades.map (fun tr => (tr.id,
        if tr.id = t.id then
          some (jsRound ((current - t.entry_price) / t.entry_price * 10000))
        else tr.pnl_bps)) ∧
    jsRound ((120 - 100) / 100 * 10000 : ℚ) = 2000 ∧
    jsRound ((70 - 100) / 100 * 10000 : ℚ) = -3000 := by
  have key : ((sellBranch env d) s).1 = Except.ok 1 ∧
      ((sellBranch env d) s).2.db.trades =
        (updateTradeQ t.id current res.txHash res.timestamp
          (pnlBpsOf t.entry_price current) s.db).trades := by
    simp only [sellBranch, bind_apply, M.dbRead, M.call, M.dbWrite, mpure_apply,
      hdb, hfind, hprice, hclose, if_true]
    split
    next a s1 heq =>
      obtain ⟨-, e2, -, -, -⟩ := exitTweetBlock_run _ _ _ heq
      split
      next b s2 heq2 =>
        obtain ⟨-, f2, -, -, -⟩ := exitCastBlock_run _ _ _ heq2
        simp_all
      next e s2 heq2 =>
        obtain ⟨f1, -, -, -, -⟩ := exitCastBlock_run _ _ _ heq2
        simp at f1
    next e s1 heq =>
      obtain ⟨e1, -, -, -, -⟩ := exitTweetBlock_run _ _ _ heq
      simp at e1
  refine ⟨key.1, ?_, by norm_num [jsRound, Int.floor_eq_iff],
    by norm_num [jsRound, Int.floor_eq_iff]⟩
  rw [key.2, updateTradeQ_pnl_proj]
  simp [pnlBpsOf]

def envC2 : Env := { baseEnv with getMarketPriceE := fun _ _ _ => some 120 }

def tC2 : Trade :=
  { id := 1
    market_id := "m1"
    market_name := "M1"
    position := Position.NO
    amount_eth := some 1
    amount_usd := some 3000
    entry_price := 100
    entry_tx_hash := "tx1"
    entry_timestamp := 0
    status := TradeStatus.OPEN }

def dC2 : Decision :=
  { action := Action.SELL
    marketId := "m1"
    marketName := "M1"
    position := Position.NO
    amountEth := 1
    reasoning := "r"
    confidence := 1 }

def sC2 : AgentState :=
  { initState with db := { emptyDb with trades := [tC2], nextId := 2 } }

/-- Witness for C2: a concrete SELL against an open NO trade with entry
price 100 and current price 120 persists `pnl_bps = 2000`. -/
theorem sell_pnl_bps_persisted_witness :
    (getOpenTradesQ sC2.db).find? (fun tr => tr.market_id == dC2.marketId) = some tC2 ∧
    tC2.entry_price ≠ 0 ∧
    ((sellBranch envC2 dC2) sC2).1 = Except.ok 1 ∧
    ((sellBranch envC2 dC2) sC2).2.db.trades.map (fun tr => (tr.id, tr.pnl_bps)) =
      sC2.db.trades.map (fun tr => (tr.id,
        if tr.id = tC2.id then
          some (jsRound ((120 - tC2.entry_price) / tC2.entry_price * 10000))
        else tr.pnl_bps)) :=
  ⟨by decide, by norm_num [tC2],
    (sell_pnl_bps_persisted envC2 dC2 sC2 tC2 120 { txHash := "tx2", timestamp := 1 }
      (by decide) (by norm_num [tC2]) (fun i => rfl) (fun i => rfl) (fun i => rfl)).1,
    (sell_pnl_bps_persisted envC2 dC2 sC2 tC2 120 { txHash := "tx2", timestamp := 1 }
      (by decide) (by norm_num [tC2]) (fun i => rfl) (fun i => rfl) (fun i => rfl)).2.1⟩

/-- `updateTradeQ` viewed through the (id, amount_eth) projection: the
CLOSED mutation never touches the stored amount. -/
theorem updateTradeQ_amount_proj (tid : ℕ) (ep : ℚ) (tx : String) (ts : ℤ)
    (pnl : ℤ) (db : Db) :
    (updateTradeQ tid ep tx ts pnl db).trades.map (fun tr => (tr.id, tr.amount_eth)) =
      db.trades.map (fun tr => (tr.id, tr.amount_eth)) := by
  simp only [updateTradeQ, List.map_map]
  apply List.map_congr_left
  intro a _
  by_cases h : a.id = tid <;> simp [h]

set_option maxRecDepth 8000 in
/-- **C10.** Every trade-exit social post generated by the SELL branch has
its amount field set to the hardcoded 0.1 ETH placeholder (no run of
`sellBranch` ever generates an exit post with a different amount), and the
persisted trade rows' `amount_eth` is never modified.  The second conjunct
shows the placeholder live on a concrete SELL whose closed trade actually
holds 1 ETH: the generated post still carries 0.1. -/
theorem exit_post_amount_placeholder :
    (∀ (env : Env) (d : Decision) (s : AgentState),
      badExitGenCount (((sellBranch env d) s).2.trace) = badExitGenCount s.trace ∧
      ((sellBranch env d) s).2.db.trades.map (fun tr => (tr.id, tr.amount_eth)) =
        s.db.trades.map (fun tr => (tr.id, tr.amount_eth))) ∧
    (tC2.amount_eth = some 1 ∧
      Event.tradeExitPostGen
        { marketName := "M1"
          position := Position.NO
          entryPrice := 100
          exitPrice := 120
          pnlBps := 2000
          amountEth := 1/10
          txHash := "tx2"
          timestamp := 1
          exitReason := "Signal shifted; trimming risk." }
        ∈ ((sellBranch envC2 dC2) sC2).2.trace) := by
  refine ⟨fun env d s => ?main, by decide, ?concrete⟩
  case concrete =>
    simp +decide [sellBranch, bind_apply, M.dbRead, M.call, M.dbWrite, mpure_apply,
      exitTweetBlock, exitCastBlock, tryCatch_apply, M.emit, M.nowCall, ite_apply,
      envC2, baseEnv, dC2, sC2, tC2, initState, emptyDb, defaultConfig,
      getOpenTradesQ, List.find?, pnlBpsOf, jsRound, exitReasonOf, jsTruthy,
      updateTradeQ, recordSocialPostQ, amountUsdOf, Int.floor_eq_iff]
    norm_num [Int.floor_eq_iff]
  case main =>
  cases hdb1 : env.dbOk s.counter
  · simp [sellBranch, bind_apply, M.dbRead, M.call, M.dbWrite, mpure_apply, hdb1]
  · rcases hf : (getOpenTradesQ s.db).find? (fun tr => tr.market_id == d.marketId) with _ | t
    · simp [sellBranch, bind_apply, M.dbRead, M.call, M.dbWrite, mpure_apply, hdb1, hf]
    · rcases hp : env.getMarketPriceE (s.counter + 1) d.marketId t.position with _ | price
      · simp [sellBranch, bind_apply, M.dbRead, M.call, M.dbWrite, mpure_apply, hdb1, hf, hp,
          badExitGenCount, isBadExitGen, List.filter]
      · rcases hc : env.closePos (s.counter + 2) with _ | res
        · simp [sellBranch, bind_apply, M.dbRead, M.call, M.dbWrite, mpure_apply, hdb1, hf, hp,
            hc, badExitGenCount, isBadExitGen, List.filter]
        · cases hdb2 : env.dbOk (s.counter + 3)
          · simp [sellBranch, bind_apply, M.dbRead, M.call, M.dbWrite, mpure_apply, hdb1, hf, hp,
              hc, hdb2, badExitGenCount, isBadExitGen, List.filter]
          · simp only [sellBranch, bind_apply, M.dbRead, M.call, M.dbWrite, mpure_apply, hdb1,
              hf, hp, hc, hdb2, if_true]
            split
            next a s1 heq =>
              obtain ⟨-, e2, -, -, e5⟩ := exitTweetBlock_run _ _ _ heq
              split
              next b s2 heq2 =>
                obtain ⟨-, f2, -, -, f5⟩ := exitCastBlock_run _ _ _ heq2
                simp_all [badExitGenCount, isBadExitGen, List.filter, updateTradeQ_amount_proj]
              next e s2 heq2 =>
                obtain ⟨f1, -, -, -, -⟩ := exitCastBlock_run _ _ _ heq2
                simp at f1
            next e s1 heq =>
              obtain ⟨e1, -, -, -, -⟩ := exitTweetBlock_run _ _ _ heq
              simp at e1

/-- **C6.** In an iteration where the tip gate passes (tips enabled,
`now − lastTipTime ≥ tipIntervalMs`) and a recipient is chosen (the
configured list is non-empty), `lastTipTime` advances to the gate-check
time `now` exactly when `sendTip` resolves; when `sendTip` throws,
`lastTipTime` is left unchanged. -/
theorem tip_lastTipTime_update (env : Env) (s : AgentState)
    (hd : env.cfg.disableTips = false)
    (hg : env.now s.counter - s.lastTipTime ≥ env.cfg.tipIntervalMs)
    (hr : env.cfg.tipRecipients ≠ []) :
    (env.sendTipE (s.counter + 2) = some () →
      ((tipStep env) s).2.lastTipTime = env.now s.counter) ∧
    (env.sendTipE (s.counter + 2) = none →
      ((tipStep env) s).2.lastTipTime = s.lastTipTime) := by
  have hlen : 0 < env.cfg.tipRecipients.length := List.length_pos.mpr hr
  obtain ⟨r, hrec⟩ : ∃ r,
      env.cfg.tipRecipients[env.randIndex (s.counter + 1) % env.cfg.tipRecipients.length]? =
        some r := by
    rw [List.getElem?_eq_getElem (Nat.mod_lt _ hlen)]
    exact ⟨_, rfl⟩
  constructor
  · intro hst
    simp [tipStep, bind_apply, M.nowCall, M.getState, pickTipRecipient, M.call,
      M.setLastTip, tryCatch_apply, mpure_apply, ite_apply, hd, hg, hrec, hst,
      List.isEmpty_iff, hr]
  · intro hst
    simp [tipStep, bind_apply, M.nowCall, M.getState, pickTipRecipient, M.call,
      M.setLastTip, tryCatch_apply, mpure_apply, ite_apply, hd, hg, hrec, hst,
      List.isEmpty_iff, hr]

def envC6f : Env := { baseEnv with sendTipE := fun _ => none }

/-- Witness for C6: with the gate passing at time 1000000000, a resolving
`sendTip` advances `lastTipTime` to that gate-check time, and a throwing
`sendTip` leaves it at 0. -/
theorem tip_lastTipTime_update_witness :
    baseEnv.cfg.disableTips = false ∧
    baseEnv.now 0 - initState.lastTipTime ≥ baseEnv.cfg.tipIntervalMs ∧
    baseEnv.cfg.tipRecipients ≠ [] ∧
    ((tipStep baseEnv) initState).2.lastTipTime = baseEnv.now 0 ∧
    ((tipStep envC6f) initState).2.lastTipTime = initState.lastTipTime :=
  ⟨rfl, by decide, by decide,
   (tip_lastTipTime_update baseEnv initState rfl (by decide) (by decide)).1 rfl,
   (tip_lastTipTime_update envC6f initState rfl (by decide) (by decide)).2 rfl⟩

/-- The digest body only advances `lastDailySummary` when it runs to
completion, and then it advances it to the gate-check time `now`; a body
that throws leaves it unchanged. -/
theorem digestBody_lastDaily (env : Env) (now : ℤ) (s : AgentState) :
    (((digestBody env now) s).1 = Except.ok () →
      ((digestBody env now) s).2.lastDailySummary = now) ∧
    (((digestBody env now) s).1 = Except.error () →
      ((digestBody env now) s).2.lastDailySummary = s.lastDailySummary) := by
  rcases hb1 : env.getBalance s.counter with _ | bal
  · simp [digestBody, bind_apply, M.call, M.dbRead, M.dbWrite, M.nowCall,
      M.setLastDaily, mpure_apply, hb1]
  · cases h2 : env.dbOk (s.counter + 1)
    · simp [digestBody, bind_apply, M.call, M.dbRead, M.dbWrite, M.nowCall,
        M.setLastDaily, mpure_apply, hb1, h2]
    · cases h3 : env.dbOk (s.counter + 2)
      · simp [digestBody, bind_apply, M.call, M.dbRead, M.dbWrite, M.nowCall,
          M.setLastDaily, mpure_apply, hb1, h2, h3]
      · simp only [digestBody, bind_apply, M.call, M.dbRead, M.dbWrite, M.nowCall,
          M.setLastDaily, mpure_apply, hb1, h2, h3, if_true, if_false]
        split
        next a s1 heq =>
          obtain ⟨-, e2, -⟩ := digestTweetBlock_run _ _ heq
          split
          next b s2 heq2 =>
            obtain ⟨-, f2, -⟩ := digestCastBlock_run _ _ heq2
            cases h5 : env.dbOk (s2.counter + 1) <;> simp_all
          next e s2 heq2 =>
            obtain ⟨f1, -, -⟩ := digestCastBlock_run _ _ heq2
            simp at f1
        next e s1 heq =>
          obtain ⟨e1, -, -⟩ := digestTweetBlock_run _ _ heq
          simp at e1

/-- The digest body runs to completion whenever the balance read and the
database calls resolve — the two social post calls may fail or return
anything (their blocks are individually caught). -/
theorem digestBody_ok (env : Env) (now : ℤ) (s : AgentState) (bal : ℚ)
    (hb : ∀ i, env.getBalance i = some bal)
    (hdb : ∀ i, env.dbOk i = true) :
    ((digestBody env now) s).1 = Except.ok () := by
  simp only [digestBody, bind_apply, M.call, M.dbRead, M.dbWrite, M.nowCall,
    M.setLastDaily, mpure_apply, hb, hdb, if_true]
  split
  next a s1 heq =>
    obtain ⟨-, e2, -⟩ := digestTweetBlock_run _ _ heq
    split
    next b s2 heq2 =>
      obtain ⟨-, f2, -⟩ := digestCastBlock_run _ _ heq2
      simp_all [hdb]
    next e s2 heq2 =>
      obtain ⟨f1, -, -⟩ := digestCastBlock_run _ _ heq2
      simp at f1
  next e s1 heq =>
    obtain ⟨e1, -, -⟩ := digestTweetBlock_run _ _ heq
    simp at e1

/-- **C5.** The daily digest fires at most once per configured interval
and advances `lastDailySummary` even when the social posts fail:
(a) when the gate fails (`now − lastFire < interval`) the call is a
complete no-op; (b) in every run, `lastDailySummary` is either unchanged
or set to the gate-check time, the latter only when the gate held — so two
consecutive advances are at least one interval apart; (c) when the gate
holds and the balance/database reads resolve, `lastDailySummary` advances
to the gate-check time whatever the two social post calls do (throwing
included). -/
theorem digest_fires_once_and_advances (env : Env) (s : AgentState) :
    (env.now s.counter - s.lastDailySummary < DAILY_SUMMARY_INTERVAL →
      (postDailySummary env) s = (Except.ok (), { s with counter := s.counter + 1 })) ∧
    (((postDailySummary env) s).2.lastDailySummary = s.lastDailySummary ∨
      (((postDailySummary env) s).2.lastDailySummary = env.now s.counter ∧
        env.now s.counter - s.lastDailySummary ≥ DAILY_SUMMARY_INTERVAL)) ∧
    (∀ bal : ℚ,
      env.now s.counter - s.lastDailySummary ≥ DAILY_SUMMARY_INTERVAL →
      (∀ i, env.getBalance i = some bal) →
      (∀ i, env.dbOk i = true) →
      ((postDailySummary env) s).2.lastDailySummary = env.now s.counter) := by
  refine ⟨?gate, ?fires, ?advance⟩
  case gate =>
    intro hgate
    simp [postDailySummary, bind_apply, M.nowCall, M.getState, mpure_apply, ite_apply, hgate]
  case fires =>
    by_cases hgate : env.now s.counter - s.lastDailySummary < DAILY_SUMMARY_INTERVAL
    · simp [postDailySummary, bind_apply, M.nowCall, M.getState, mpure_apply, ite_apply, hgate]
    · simp only [postDailySummary, bind_apply, M.nowCall, M.getState, mpure_apply,
        ite_apply, tryCatch_apply, hgate, if_false]
      rcases hrun : (digestBody env (env.now s.counter))
          { s with counter := s.counter + 1 } with ⟨r, s2⟩
      obtain ⟨d1, d2⟩ := digestBody_lastDaily env (env.now s.counter)
        { s with counter := s.counter + 1 }
      rw [hrun] at d1 d2
      rcases r with e | a
      · simp_all [not_lt.mp hgate]
      · simp_all [not_lt.mp hgate]
  case advance =>
    intro bal hgate hb hdb
    have hgate' : ¬ env.now s.counter - s.lastDailySummary < DAILY_SUMMARY_INTERVAL :=
      not_lt.mpr hgate
    simp only [postDailySummary, bind_apply, M.nowCall, M.getState, mpure_apply,
      ite_apply, tryCatch_apply, hgate', if_false]
    rcases hrun : (digestBody env (env.now s.counter))
        { s with counter := s.counter + 1 } with ⟨r, s2⟩
    obtain ⟨d1, d2⟩ := digestBody_lastDaily env (env.now s.counter)
      { s with counter := s.counter + 1 }
    have hok := digestBody_ok env (env.now s.counter)
      { s with counter := s.counter + 1 } bal hb hdb
    rw [hrun] at d1 d2 hok
    rcases r with e | a
    · simp at hok
    · simp_all

def envC5 : Env :=
  { baseEnv with postTweet := fun _ _ => none, postCast := fun _ _ => none }

/-- Witness for C5: with the gate passing and both social post calls
throwing on every attempt, `lastDailySummary` still advances to the
gate-check time. -/
theorem digest_fires_once_and_advances_witness :
    envC5.now 0 - initState.lastDailySummary ≥ DAILY_SUMMARY_INTERVAL ∧
    (∀ i j, envC5.postTweet i j = none ∧ envC5.postCast i j = none) ∧
    ((postDailySummary envC5) initState).2.lastDailySummary = envC5.now 0 :=
  ⟨by decide, fun i j => ⟨rfl, rfl⟩,
    (digest_fires_once_and_advances envC5 initState).2.2 20000000000000000
      (by decide) (fun i => rfl) (fun i => rfl)⟩

/-- Pair-hypothesis form of `entryTweetBlock_spec`. -/
theorem entryTweetBlock_run (env : Env) (p : EntryPostParams) (tid : ℕ)
    {s s' : AgentState} {r : Except Unit Unit} (twRes : Option (Option String))
    (h : (entryTweetBlock env p tid) s = (r, s'))
    (htw : ∀ i c, env.postTweet i c = twRes)
    (hdb : ∀ i, env.dbOk i = true) :
    r = Except.ok () ∧ s'.db.trades = s.db.trades ∧
    s'.db.socialPosts.map postKey = s.db.socialPosts.map postKey ++ twitterPart twRes := by
  obtain ⟨e1, e2, -, -, e5⟩ := entryTweetBlock_spec env p tid s twRes (htw _ _) hdb
  rw [h] at e1 e2 e5
  exact ⟨e1, e2, e5⟩

/-- Pair-hypothesis form of `entryCastBlock_spec`. -/
theorem entryCastBlock_run (env : Env) (p : EntryPostParams) (tid : ℕ)
    {s s' : AgentState} {r : Except Unit Unit} (caRes : Option (Option String))
    (h : (entryCastBlock env p tid) s = (r, s'))
    (hca : ∀ i c, env.postCast i c = caRes)
    (hdb : ∀ i, env.dbOk i = true) :
    r = Except.ok () ∧ s'.db.trades = s.db.trades ∧
    s'.db.socialPosts.map postKey = s.db.socialPosts.map postKey ++ farcasterPart caRes := by
  obtain ⟨e1, e2, -, -, e5⟩ := entryCastBlock_spec env p tid s caRes (hca _ _) hdb
  rw [h] at e1 e2 e5
  exact ⟨e1, e2, e5⟩

def envC8 : Env := { baseEnv with postCast := fun _ _ => some none }

def dC8 : Decision :=
  { action := Action.BUY
    marketId := "m2"
    marketName := "M2"
    position := Position.YES
    amountEth := 1/100
    reasoning := "r"
    confidence := 1 }

set_option maxRecDepth 8000 in
/-- **C8, counterexample.** On a BUY whose Farcaster cast call resolves
with `null` (no post id — an unsuccessful publish in the claim's own
terms), the fan-out still persists a FARCASTER SocialPost record, with a
null `post_id`: the claim's "no SocialPost record is created for a post
attempt that did not succeed" is false for the Farcaster branch. -/
theorem trade_entry_fanout_counterexample :
    envC8.postCast 5 "FARCASTER" = some none ∧
    ((executeTradingDecisions envC8 [dC8] []) initState).2.db.socialPosts.map postKey =
      [("TWITTER", "TRADE_ENTRY", some "tweet1"),
        ("FARCASTER", "TRADE_ENTRY", (none : Option String))] := by
  refine ⟨rfl, ?_⟩
  simp +decide [executeTradingDecisions, execLoop, buyBranch, bind_apply, M.call,
    M.dbWrite, M.nowCall, mpure_apply, ite_apply, tryCatch_apply,
    entryTweetBlock, entryCastBlock, envC8, baseEnv, dC8, initState, emptyDb,
    defaultConfig, createTradeQ, recordSocialPostQ, jsTruthy, postKey, List.lookup]

/-- **C8, amended.** In the trade-entry fan-out (hypotheses: the order
resolves, the database writes succeed, and each platform's post call has a
fixed outcome): the trade record is always persisted as a new OPEN row; a
TWITTER SocialPost record is persisted exactly when the tweet call resolved
with a truthy id (`twitterPart`); a FARCASTER SocialPost record is
persisted whenever the cast call resolved, even with a null id
(`farcasterPart`); a throwing post call on either platform yields no
record for it, blocks neither the other platform nor the trade record, and
the decision still counts as executed. -/
theorem trade_entry_fanout_amended (env : Env) (pm : List (String × ℚ × ℚ))
    (d : Decision) (s : AgentState) (er : ExecTradeResult)
    (twRes caRes : Option (Option String))
    (her : ∀ i a, env.execTrade i a = some er)
    (htw : ∀ i c, env.postTweet i c = twRes)
    (hca : ∀ i c, env.postCast i c = caRes)
    (hdb : ∀ i, env.dbOk i = true) :
    ((buyBranch env pm d) s).1 = Except.ok 1 ∧
    (∃ t, ((buyBranch env pm d) s).2.db.trades = s.db.trades ++ [t] ∧
      t.status = TradeStatus.OPEN) ∧
    ((buyBranch env pm d) s).2.db.socialPosts.map postKey =
      s.db.socialPosts.map postKey ++ twitterPart twRes ++ farcasterPart caRes := by
  simp only [buyBranch, bind_apply, M.call, M.dbWrite, mpure_apply, her, hdb,
    if_true, createTradeQ]
  split
  next a s1 heq =>
    obtain ⟨-, e2, e5⟩ := entryTweetBlock_run _ _ _ twRes heq htw hdb
    split
    next b s2 heq2 =>
      obtain ⟨-, f2, f5⟩ := entryCastBlock_run _ _ _ caRes heq2 hca hdb
      refine ⟨rfl,
        ⟨{ id := s.db.nextId
           market_id := er.resolvedMarketId.getD d.marketId
           market_name := d.marketName
           position := d.position
           amount_eth := some d.amountEth
           amount_usd := some (d.amountEth * env.cfg.ethUsdPrice)
           entry_price := er.actualPrice
           entry_tx_hash := er.txHash
           entry_timestamp := er.timestamp
           status := TradeStatus.OPEN }, ?_, rfl⟩, ?_⟩
      · rw [f2, e2]
      · rw [f5, e5]
    next e s2 heq2 =>
      obtain ⟨f1, -, -⟩ := entryCastBlock_run _ _ _ caRes heq2 hca hdb
      simp at f1
  next e s1 heq =>
    obtain ⟨e1, -, -⟩ := entryTweetBlock_run _ _ _ twRes heq htw hdb
    simp at e1

def envC8w : Env :=
  { baseEnv with
      postTweet := fun _ _ => none
      postCast := fun _ _ => some (some "cast1")
      execTrade := fun _ _ => some
        { resolvedMarketId := none, actualPrice := 5000, txHash := "tx", timestamp := 0 } }

/-- Witness for the amended C8: with a throwing tweet call and a resolving
cast call, no TWITTER record and exactly one FARCASTER record are
persisted, and the trade record is still created. -/
theorem trade_entry_fanout_amended_witness :
    (∀ i c, envC8w.postTweet i c = none) ∧
    ((buyBranch envC8w [] dC8) initState).1 = Except.ok 1 ∧
    (∃ t, ((buyBranch envC8w [] dC8) initState).2.db.trades =
      initState.db.trades ++ [t] ∧ t.status = TradeStatus.OPEN) ∧
    ((buyBranch envC8w [] dC8) initState).2.db.socialPosts.map postKey =
      initState.db.socialPosts.map postKey ++ twitterPart none ++
        farcasterPart (some (some "cast1")) :=
  ⟨fun i c => rfl,
    (trade_entry_fanout_amended envC8w [] dC8 initState
      { resolvedMarketId := none, actualPrice := 5000, txHash := "tx", timestamp := 0 }
      none (some (some "cast1"))
      (fun i a => rfl) (fun i c => rfl) (fun i c => rfl) (fun i => rfl)).1,
    (trade_entry_fanout_amended envC8w [] dC8 initState
      { resolvedMarketId := none, actualPrice := 5000, txHash := "tx", timestamp := 0 }
      none (some (some "cast1"))
      (fun i a => rfl) (fun i c => rfl) (fun i c => rfl) (fun i => rfl)).2.1,
    (trade_entry_fanout_amended envC8w [] dC8 initState
      { resolvedMarketId := none, actualPrice := 5000, txHash := "tx", timestamp := 0 }
      none (some (some "cast1"))
      (fun i a => rfl) (fun i c => rfl) (fun i c => rfl) (fun i => rfl)).2.2⟩

/-- `healthCheck` never adds a call to the AI decision collaborator or the
trading collaborator to the trace (it only reads the balance and
best-effort posts an alert). -/
theorem healthCheck_aiTrading (env : Env) (s : AgentState) :
    aiTradingCount ((healthCheck env s).2.trace) = aiTradingCount s.trace := by
  rcases h1 : env.hasSufficientBalance s.counter with _ | b
  · simp [healthCheck, tryCatch_apply, bind_apply, M.call, mpure_apply, ite_apply, h1,
      aiTradingCount, isAiOrTradingCall, List.filter]
  · cases b
    · rcases h2 : env.getBalance (s.counter + 1) with _ | bal
      · simp [healthCheck, tryCatch_apply, bind_apply, M.call, mpure_apply, ite_apply,
          h1, h2, aiTradingCount, isAiOrTradingCall, List.filter]
      · rcases h3 : env.postTweet (s.counter + 2) "low balance alert" with _ | tid
        · simp [healthCheck, tryCatch_apply, bind_apply, M.call, mpure_apply, ite_apply,
            h1, h2, h3, aiTradingCount, isAiOrTradingCall, List.filter]
        · simp [healthCheck, tryCatch_apply, bind_apply, M.call, mpure_apply, ite_apply,
            h1, h2, h3, aiTradingCount, isAiOrTradingCall, List.filter]
    · simp [healthCheck, tryCatch_apply, bind_apply, M.call, mpure_apply, ite_apply, h1,
        aiTradingCount, isAiOrTradingCall, List.filter]

/-- **C3.** A balance query that throws is treated as unhealthy, and in
every iteration whose health check returns false, `runOneIteration`
returns `ok = false` with the health message and makes zero calls to
`analyzeMarkets`, `executeTrade`, `closePosition` or `getMarketPrice`
(the AI/trading call count of the trace does not change). -/
theorem health_gate_blocks_ai_and_trading (env : Env) (s : AgentState) :
    (env.hasSufficientBalance s.counter = none → (healthCheck env s).1 = Except.ok false) ∧
    ((healthCheck env s).1 = Except.ok false →
      (runOneIteration env s).1 =
        Except.ok { ok := false, message := "Health check failed" } ∧
      aiTradingCount ((runOneIteration env s).2.trace) = aiTradingCount s.trace) := by
  constructor
  · intro h1
    simp [healthCheck, tryCatch_apply, bind_apply, M.call, mpure_apply, ite_apply, h1]
  · intro hfalse
    have hcount := healthCheck_aiTrading env s
    rcases hh : healthCheck env s with ⟨r, s1⟩
    rw [hh] at hfalse hcount
    simp only at hfalse
    subst hfalse
    simp only [runOneIteration, tryCatch_apply, bind_apply, hh, Bool.not_false,
      mpure_apply, ite_apply, if_true]
    exact ⟨trivial, by simpa using hcount⟩

def envC3 : Env := { baseEnv with hasSufficientBalance := fun _ => none }

/-- Witness for C3: with the balance query throwing, the health check
reports unhealthy, the iteration returns ok = false, and no AI/trading
call is made. -/
theorem health_gate_blocks_ai_and_trading_witness :
    envC3.hasSufficientBalance 0 = none ∧
    (healthCheck envC3 initState).1 = Except.ok false ∧
    (runOneIteration envC3 initState).1 =
      Except.ok { ok := false, message := "Health check failed" } ∧
    aiTradingCount ((runOneIteration envC3 initState).2.trace) =
      aiTradingCount initState.trace :=
  ⟨rfl,
   (health_gate_blocks_ai_and_trading envC3 initState).1 rfl,
   ((health_gate_blocks_ai_and_trading envC3 initState).2
     ((health_gate_blocks_ai_and_trading envC3 initState).1 rfl)).1,
   ((health_gate_blocks_ai_and_trading envC3 initState).2
     ((health_gate_blocks_ai_and_trading envC3 initState).1 rfl)).2⟩

/-- A health check whose balance oracle reports sufficient funds returns
true, consuming one call. -/
theorem healthCheck_true (env : Env) (s : AgentState)
    (hhb : ∀ i, env.hasSufficientBalance i = some true) :
    healthCheck env s = (Except.ok true,
      { s with counter := s.counter + 1,
               trace := s.trace ++ [Event.hasSufficientBalanceCall] }) := by
  simp [healthCheck, tryCatch_apply, bind_apply, M.call, mpure_apply, ite_apply, hhb]

/-- `Promise.all` semantics of the reconciler: as soon as the price fetch
of any open trade in the list rejects, the whole reconciliation rejects —
no position views are produced, for the failing trade or for any other. -/
theorem reconcilePositions_err (env : Env) (trades : List Trade) (t : Trade)
    (hmem : t ∈ trades)
    (ht : ∀ i, env.getMarketPriceE i t.market_id t.position = none) :
    ∀ s, ((reconcilePositions env trades) s).1 = Except.error () := by
  induction trades with
  | nil => exact absurd hmem (List.not_mem_nil t)
  | cons hd tl ih =>
    intro s
    rcases hp : env.getMarketPriceE s.counter hd.market_id hd.position with _ | price
    · simp [reconcilePositions, bind_apply, M.call, mpure_apply, hp]
    · rcases List.mem_cons.mp hmem with heq | hmem'
      · subst heq
        rw [ht] at hp
        cases hp
      · have herr := ih hmem'
        simp only [reconcilePositions, bind_apply, M.call, mpure_apply, hp]
        set SX : AgentState :=
          { s with counter := s.counter + 1,
                   trace := s.trace ++ [Event.getMarketPriceCall hd.market_id hd.position] }
          with hSX
        rcases hrec : (reconcilePositions env tl) SX with ⟨r, s2⟩
        have hthis := herr SX
        rw [hrec] at hthis
        rcases r with e | v
        · simp
        · simp at hthis

def envC1 : Env :=
  { baseEnv with
      getMarketPriceE := fun _ mid _ => if mid == "m1" then none else some 5000 }

def tC1a : Trade :=
  { id := 1, market_id := "m1", market_name := "M1", position := Position.YES
    amount_eth := some 1, amount_usd := some 3000, entry_price := 100
    entry_tx_hash := "a", entry_timestamp := 0, status := TradeStatus.OPEN }

def tC1b : Trade :=
  { id := 2, market_id := "m2", market_name := "M2", position := Position.YES
    amount_eth := some 1, amount_usd := some 3000, entry_price := 200
    entry_tx_hash := "b", entry_timestamp := 0, status := TradeStatus.OPEN }

def sC1 : AgentState :=
  { initState with db := { emptyDb with trades := [tC1a, tC1b], nextId := 3 } }

/-- **C1, counterexample.** Two open trades; the price oracle throws for
"m1" at every call and answers for "m2".  The reconciliation produces no
position view at all (it rejects — in particular no view for the healthy
"m2" trade is computed), and the iteration aborts with ok = false: a
failed fetch for one trade does abort the others and the iteration. -/
theorem reconcile_isolation_counterexample :
    envC1.getMarketPriceE 4 "m1" Position.YES = none ∧
    envC1.getMarketPriceE 5 "m2" Position.YES = some 5000 ∧
    ((reconcilePositions envC1 [tC1a, tC1b]) sC1).1 = Except.error () ∧
    (runOneIteration envC1 sC1).1 = Except.ok { ok := false, message := "error" } :=
  ⟨rfl, rfl, rfl, rfl⟩

/-- **C1, amended.** The per-position reconciliation is a `Promise.all`
with no per-item catch: when the price fetch of any open trade fails, the
whole reconciliation rejects with no position views, and the iteration's
top-level catch returns ok = false (given that the health check, market
fetch, balance read and the open-trades read all succeed so that the
iteration reaches the reconciler). -/
theorem reconcile_failure_aborts_iteration (env : Env) (s : AgentState) (t : Trade)
    (mkts : List Market) (bal : ℚ)
    (hhb : ∀ i, env.hasSufficientBalance i = some true)
    (hm : ∀ i, env.fetchMarketsE i = some mkts)
    (hb : ∀ i, env.getBalance i = some bal)
    (hdb : ∀ i, env.dbOk i = true)
    (hmem : t ∈ getOpenTradesQ s.db)
    (ht : ∀ i, env.getMarketPriceE i t.market_id t.position = none) :
    (∀ s2, ((reconcilePositions env (getOpenTradesQ s.db)) s2).1 = Except.error ()) ∧
    (runOneIteration env s).1 = Except.ok { ok := false, message := "error" } := by
  refine ⟨reconcilePositions_err env _ t hmem ht, ?_⟩
  have hhc := healthCheck_true env s hhb
  simp only [runOneIteration, tryCatch_apply, bind_apply, hhc, M.call, M.dbRead,
    mpure_apply, ite_apply, hm, hb, hdb, if_true, Bool.not_true, if_false]
  set SX : AgentState :=
    { s with counter := s.counter + 4,
             trace := s.trace ++ [Event.hasSufficientBalanceCall] ++
               [Event.fetchMarketsCall] ++ [Event.getBalanceCall] }
    with hSX
  rcases hrec : (reconcilePositions env (getOpenTradesQ s.db)) SX with ⟨r, s2⟩
  have herr := reconcilePositions_err env (getOpenTradesQ s.db) t hmem ht SX
  rw [hrec] at herr
  rcases r with e | v
  · simp
  · simp at herr

/-- Witness for the amended C1: the counterexample environment satisfies
every hypothesis, the reconciliation rejects from every start state, and
the iteration reports ok = false. -/
theorem reconcile_failure_aborts_iteration_witness :
    tC1a ∈ getOpenTradesQ sC1.db ∧
    (∀ s2, ((reconcilePositions envC1 (getOpenTradesQ sC1.db)) s2).1 = Except.error ()) ∧
    (runOneIteration envC1 sC1).1 = Except.ok { ok := false, message := "error" } :=
  ⟨by decide,
   (reconcile_failure_aborts_iteration envC1 sC1 tC1a [] 20000000000000000
     (fun i => rfl) (fun i => rfl) (fun i => rfl) (fun i => rfl)
     (by decide) (fun i => rfl)).1,
   (reconcile_failure_aborts_iteration envC1 sC1 tC1a [] 20000000000000000
     (fun i => rfl) (fun i => rfl) (fun i => rfl) (fun i => rfl)
     (by decide) (fun i => rfl)).2⟩

/-- **C9.** The shutdown handlers do not merely set the running flag: both
the SIGINT and the SIGTERM handler call `process.exit(0)` immediately
after setting it (source lines 677-687), which terminates the process at
once instead of letting an in-progress iteration finish — contradicting
the handlers' own "shutting down gracefully" log line and the README's
"graceful shutdown" safety feature. -/
theorem shutdown_handlers_exit_immediately :
    ProcAction.exitProcess 0 ∈ sigintHandlerActions ∧
    ProcAction.exitProcess 0 ∈ sigtermHandlerActions ∧
    sigintHandlerActions ≠ [ProcAction.logLine
      "Received SIGINT, shutting down gracefully...", ProcAction.setRunning false] := by
  refine ⟨?_, ?_, by decide⟩ <;> simp [sigintHandlerActions, sigtermHandlerActions]

def dedupPotential (p x : String) (s : AgentState) : ℕ :=
  replyCount s.trace p x + (if hasMention s.db p x then 0 else 1)

theorem exists_record (q mid a c : String) (ts : ℤ) (db : Db) (p x : String) :
    (∃ r ∈ ((recordMentionQ q mid a c ts db).1).mentions, r.mention_id = x ∧ r.platform = p) ↔
      ((∃ r ∈ db.mentions, r.mention_id = x ∧ r.platform = p) ∨ (mid = x ∧ q = p)) := by
  simp [recordMentionQ, List.mem_append, or_and_right, exists_or, exists_eq_left]

theorem exists_markReplied (mid : ℕ) (rid : String) (db : Db) (p x : String) :
    (∃ r ∈ (markMentionRepliedQ mid rid db).1.mentions, r.mention_id = x ∧ r.platform = p) ↔
      ∃ r ∈ db.mentions, r.mention_id = x ∧ r.platform = p := by
  simp only [markMentionRepliedQ, List.mem_map]
  constructor
  · rintro ⟨r, ⟨r0, hr0, rfl⟩, h1, h2⟩
    refine ⟨r0, hr0, ?_, ?_⟩ <;> by_cases h : r0.id = mid <;> simp_all
  · rintro ⟨r0, hr0, h1, h2⟩
    refine ⟨if r0.id = mid then { r0 with replied := true, reply_id := some rid } else r0,
      ⟨r0, hr0, rfl⟩, ?_, ?_⟩ <;> by_cases h : r0.id = mid <;> simp_all

theorem replyCount_single (q tid txt p x : String) :
    replyCount [Event.replyCall q tid txt] p x = if q = p ∧ tid = x then 1 else 0 := by
  have e1 : (q == p) = decide (q = p) := rfl
  have e2 : (tid == x) = decide (tid = x) := rfl
  by_cases h1 : q = p <;> by_cases h2 : tid = x <;>
    simp [replyCount, isReplyTo, List.filter, e1, e2, h1, h2]

theorem mentionRecordTail_potential (env : Env) (q mid reply rid : String)
    (s : AgentState) (p x : String) :
    dedupPotential p x ((mentionRecordTail env q mid reply rid) s).2 =
      dedupPotential p x s := by
  cases h6 : env.dbOk s.counter
  · simp [mentionRecordTail, bind_apply, M.dbRead, M.dbWrite, M.nowCall, mpure_apply,
      h6, dedupPotential]
  · rcases h7 : s.db.mentions.find? (fun r => r.mention_id == mid) with _ | dbm
    · cases h8 : env.dbOk (s.counter + 2) <;>
        simp [mentionRecordTail, bind_apply, M.dbRead, M.dbWrite, M.nowCall, mpure_apply,
          h6, h7, h8, dedupPotential, getUnprocessedMentionsQ, recordSocialPostQ,
          hasMention, replyCount, isReplyTo, List.filter]
    · cases h8 : env.dbOk (s.counter + 1)
      · simp [mentionRecordTail, bind_apply, M.dbRead, M.dbWrite, M.nowCall, mpure_apply,
          h6, h7, h8, dedupPotential, getUnprocessedMentionsQ,
          hasMention, replyCount, isReplyTo, List.filter]
      · cases h9 : env.dbOk (s.counter + 3) <;>
          simp [mentionRecordTail, bind_apply, M.dbRead, M.dbWrite, M.nowCall, mpure_apply,
            h6, h7, h8, h9, dedupPotential, getUnprocessedMentionsQ, recordSocialPostQ,
            hasMention, exists_markReplied, replyCount, isReplyTo, List.filter]


theorem hasMention_record (q mid author content : String) (ts : ℤ) (db : Db)
    (p x : String) :
    hasMention (recordMentionQ q mid author content ts db).1 p x ↔
      (hasMention db p x ∨ (mid = x ∧ q = p)) := by
  simp [hasMention, exists_record]

theorem psi_after_record_reply (p x q mid author content gtxt rep : String)
    (ts : ℤ) (s : AgentState) (c : ℕ)
    (h2 : ¬ hasMention s.db q mid) :
    dedupPotential p x
      { db := (recordMentionQ q mid author content ts s.db).1,
        trace := s.trace ++ [Event.genReplyCall gtxt] ++ [Event.replyCall q mid rep],
        counter := c,
        lastDailySummary := s.lastDailySummary,
        lastTipTime := s.lastTipTime } ≤ dedupPotential p x s := by
  simp only [dedupPotential, replyCount_append, replyCount_single]
  have hg : replyCount [Event.genReplyCall gtxt] p x = 0 := by
    simp [replyCount, isReplyTo, List.filter]
  rw [hg]
  by_cases hqp : q = p <;> by_cases hmx : mid = x
  · subst hqp
    subst hmx
    have hR : ¬ hasMention s.db q mid := h2
    simp [hasMention_record, hR]
  · simp [hasMention_record, hmx]
  · simp [hasMention_record, hqp]
  · simp [hasMention_record, hqp, hmx]

theorem stepLeafGenReplyFail (env : Env) (q : String)
    (ro : ℕ → String → String → Option String) (m : IncomingMention)
    (s : AgentState) (p x : String)
    (h1 : env.dbOk s.counter = true)
    (h2 : ¬∃ r ∈ s.db.mentions, r.mention_id = m.id ∧ r.platform = q)
    (h3 : env.dbOk (s.counter + 1) = true)
    (h4 : env.genReply (s.counter + 2) m.text = none) :
    dedupPotential p x ((mentionStepBody env q ro m) s).2 ≤ dedupPotential p x s := by
  simp [mentionStepBody, bind_apply, M.dbRead, M.dbWrite, M.call, mpure_apply,
    ite_apply, getUnprocessedMentionsQ, h1, h2, h3, h4, dedupPotential,
    replyCount, isReplyTo, List.filter, hasMention, exists_record]
  by_cases hqp : q = p <;> by_cases hmx : m.id = x <;> simp_all

theorem stepLeafReplyFail (env : Env) (q : String)
    (ro : ℕ → String → String → Option String) (m : IncomingMention)
    (s : AgentState) (p x : String) (reply : String)
    (h1 : env.dbOk s.counter = true)
    (h2 : ¬∃ r ∈ s.db.mentions, r.mention_id = m.id ∧ r.platform = q)
    (h3 : env.dbOk (s.counter + 1) = true)
    (h4 : env.genReply (s.counter + 2) m.text = some reply)
    (h5 : ro (s.counter + 3) m.id reply = none) :
    dedupPotential p x ((mentionStepBody env q ro m) s).2 ≤ dedupPotential p x s := by
  simp only [mentionStepBody, bind_apply, M.dbRead, M.dbWrite, M.call,
    mpure_apply, ite_apply, getUnprocessedMentionsQ, h1, h3, h4, h5, if_true]
  rw [if_neg (by simpa using h2)]
  simp only
  exact psi_after_record_reply p x q m.id m.author m.text m.text reply
    m.createdAt s (s.counter + 1 + 1 + 1 + 1) (by simpa [hasMention] using h2)


theorem stepLeafReplyOk (env : Env) (q : String)
    (ro : ℕ → String → String → Option String) (m : IncomingMention)
    (s : AgentState) (p x : String) (reply rid : String)
    (h1 : env.dbOk s.counter = true)
    (h2 : ¬∃ r ∈ s.db.mentions, r.mention_id = m.id ∧ r.platform = q)
    (h3 : env.dbOk (s.counter + 1) = true)
    (h4 : env.genReply (s.counter + 2) m.text = some reply)
    (h5 : ro (s.counter + 3) m.id reply = some rid) :
    dedupPotential p x ((mentionStepBody env q ro m) s).2 ≤ dedupPotential p x s := by
  simp only [mentionStepBody, bind_apply, M.dbRead, M.dbWrite, M.call,
    mpure_apply, ite_apply, getUnprocessedMentionsQ, h1, h3, h4, h5, if_true]
  rw [if_neg (by simpa using h2)]
  set SX : AgentState :=
    { db := (recordMentionQ q m.id m.author m.text m.createdAt s.db).1
      trace := s.trace ++ [Event.genReplyCall m.text] ++ [Event.replyCall q m.id reply]
      counter := s.counter + 1 + 1 + 1 + 1
      lastDailySummary := s.lastDailySummary
      lastTipTime := s.lastTipTime }
    with hSX
  rcases htail : (mentionRecordTail env q m.id reply rid) SX with ⟨r, s2⟩
  have hpsi := mentionRecordTail_potential env q m.id reply rid SX p x
  rw [htail] at hpsi
  simp only
  rw [hpsi, hSX]
  exact psi_after_record_reply p x q m.id m.author m.text m.text reply
    m.createdAt s (s.counter + 1 + 1 + 1 + 1) (by simpa [hasMention] using h2)


theorem mentionStepBody_potential (env : Env) (q : String)
    (ro : ℕ → String → String → Option String) (m : IncomingMention)
    (s : AgentState) (p x : String) :
    dedupPotential p x ((mentionStepBody env q ro m) s).2 ≤ dedupPotential p x s := by
  cases h1 : env.dbOk s.counter
  · simp [mentionStepBody, bind_apply, M.dbRead, M.dbWrite, M.call, mpure_apply,
      ite_apply, h1, dedupPotential]
  · cases h2 : s.db.mentions.any (fun r => r.mention_id == m.id && r.platform == q)
    case true =>
      replace h2 : ∃ r ∈ s.db.mentions, r.mention_id = m.id ∧ r.platform = q := by
        simpa using h2
      simp [mentionStepBody, bind_apply, M.dbRead, M.dbWrite, M.call, mpure_apply,
        ite_apply, getUnprocessedMentionsQ, h1, h2, dedupPotential]
    case false =>
      replace h2 : ¬∃ r ∈ s.db.mentions, r.mention_id = m.id ∧ r.platform = q := by
        rw [List.any_eq_false] at h2
        rintro ⟨r, hr, e1, e2⟩
        have := h2 r hr
        simp [e1, e2] at this
      cases h3 : env.dbOk (s.counter + 1)
      · simp [mentionStepBody, bind_apply, M.dbRead, M.dbWrite, M.call, mpure_apply,
          ite_apply, getUnprocessedMentionsQ, h1, h2, h3, dedupPotential]
      · rcases h4 : env.genReply (s.counter + 2) m.text with _ | reply
        · exact stepLeafGenReplyFail env q ro m s p x h1 h2 h3 h4
        · rcases h5 : ro (s.counter + 3) m.id reply with _ | rid
          · exact stepLeafReplyFail env q ro m s p x reply h1 h2 h3 h4 h5
          · exact stepLeafReplyOk env q ro m s p x reply rid h1 h2 h3 h4 h5

theorem mentionStep_run (env : Env) (q : String)
    (ro : ℕ → String → String → Option String) (m : IncomingMention)
    {s s' : AgentState} {r : Except Unit Unit}
    (h : (mentionStep env q ro m) s = (r, s')) :
    r = Except.ok () ∧ ∀ p x, dedupPotential p x s' ≤ dedupPotential p x s := by
  rcases hb : (mentionStepBody env q ro m) s with ⟨rb, sb⟩
  have hps : ∀ p x, dedupPotential p x sb ≤ dedupPotential p x s := by
    intro p x
    have := mentionStepBody_potential env q ro m s p x
    rwa [hb] at this
  rw [mentionStep, M.tryCatch] at h
  rw [hb] at h
  rcases rb with e | a
  · simp only [mpure_apply] at h
    cases h
    exact ⟨rfl, hps⟩
  · simp only at h
    cases h
    exact ⟨rfl, hps⟩

theorem mentionLoop_run (env : Env) (q : String)
    (ro : ℕ → String → String → Option String) (ms : List IncomingMention) :
    ∀ s : AgentState, ∃ s', (mentionLoop env q ro ms) s = (Except.ok (), s') ∧
      ∀ p x, dedupPotential p x s' ≤ dedupPotential p x s := by
  induction ms with
  | nil => exact fun s => ⟨s, rfl, fun _ _ => le_refl _⟩
  | cons m rest ih =>
    intro s
    rcases hstep : (mentionStep env q ro m) s with ⟨r1, s1⟩
    obtain ⟨hr1, hple⟩ := mentionStep_run env q ro m hstep
    subst hr1
    obtain ⟨s2, hrest, hle2⟩ := ih s1
    refine ⟨s2, ?_, fun p x => le_trans (hle2 p x) (hple p x)⟩
    simp only [mentionLoop, bind_apply, hstep, hrest]

theorem psi_fetch (p x pf : String) (s : AgentState) :
    dedupPotential p x
      { db := s.db
        trace := s.trace ++ [Event.fetchMentionsCall pf]
        counter := s.counter + 1
        lastDailySummary := s.lastDailySummary
        lastTipTime := s.lastTipTime } = dedupPotential p x s := by
  simp [dedupPotential, replyCount, isReplyTo, List.filter]

theorem processMentions_potential (env : Env) (s : AgentState) (p x : String) :
    dedupPotential p x ((processMentions env) s).2 ≤ dedupPotential p x s := by
  by_cases hd : env.cfg.disableMentions
  · simp [processMentions, hd, mpure_apply, ite_apply]
  · rcases hft : env.fetchTwitterMentionsE s.counter with _ | msT
    · have hrun : (processMentions env) s = (Except.ok (),
          { db := s.db
            trace := s.trace ++ [Event.fetchMentionsCall "TWITTER"]
            counter := s.counter + 1
            lastDailySummary := s.lastDailySummary
            lastTipTime := s.lastTipTime }) := by
        simp [processMentions, hd, bind_apply, tryCatch_apply, M.call, ite_apply,
          hft, mpure_apply]
      rw [hrun]
      exact le_of_eq (psi_fetch p x "TWITTER" s)
    · obtain ⟨s1, hloop1, hle1⟩ := mentionLoop_run env "TWITTER" env.replyTweet msT
        { db := s.db
          trace := s.trace ++ [Event.fetchMentionsCall "TWITTER"]
          counter := s.counter + 1
          lastDailySummary := s.lastDailySummary
          lastTipTime := s.lastTipTime }
      rcases hff : env.fetchFarcasterMentionsE s1.counter with _ | msF
      · have hrun : (processMentions env) s = (Except.ok (),
            { db := s1.db
              trace := s1.trace ++ [Event.fetchMentionsCall "FARCASTER"]
              counter := s1.counter + 1
              lastDailySummary := s1.lastDailySummary
              lastTipTime := s1.lastTipTime }) := by
          simp [processMentions, hd, bind_apply, tryCatch_apply, M.call, ite_apply,
            hft, hloop1, hff, mpure_apply]
        rw [hrun]
        exact le_of_eq (psi_fetch p x "FARCASTER" s1) |>.trans
          ((hle1 p x).trans (le_of_eq (psi_fetch p x "TWITTER" s)))
      · obtain ⟨s2, hloop2, hle2⟩ := mentionLoop_run env "FARCASTER" env.replyCast msF
          { db := s1.db
            trace := s1.trace ++ [Event.fetchMentionsCall "FARCASTER"]
            counter := s1.counter + 1
            lastDailySummary := s1.lastDailySummary
            lastTipTime := s1.lastTipTime }
        have hrun : (processMentions env) s = (Except.ok (), s2) := by
          simp [processMentions, hd, bind_apply, tryCatch_apply, M.call, ite_apply,
            hft, hloop1, hff, hloop2, mpure_apply]
        rw [hrun]
        exact (hle2 p x).trans ((le_of_eq (psi_fetch p x "FARCASTER" s1)).trans
          ((hle1 p x).trans (le_of_eq (psi_fetch p x "TWITTER" s))))

/-- **C7.** Mention deduplication: in one pass of `processMentions`, for any
platform `p` and mention id `x`, at most one reply is posted for that mention
(the reply count in the trace grows by at most one), because the first reply
records the mention in the database and subsequent sightings are skipped by
the `alreadyReplied` check. -/
theorem mention_dedup_at_most_one_reply (env : Env) (s : AgentState) (p x : String) :
    replyCount (((processMentions env) s).2.trace) p x ≤ replyCount s.trace p x + 1 := by
  have h := processMentions_potential env s p x
  by_cases c1 : hasMention ((processMentions env) s).2.db p x <;>
    by_cases c2 : hasMention s.db p x <;>
    simp [dedupPotential, c1, c2] at h <;> omega

end CrabTrader
